import Mathlib

/-!
Shallow embedding of the HTTP client of `komerce-lp-helper`
(`src/unnamed/part_001`): the `ApiInstance` class (LRU response cache,
retry with exponential backoff, request pipeline with interceptors) and
the hook layer (`useMutation` deduplication, `useInfiniteFetch`
pagination).  Timestamps are naturals (milliseconds); JS numbers in
primitives are modelled as integers; the network is an oracle mapping an
attempt index to its outcome.
-/

set_option maxRecDepth 10000

/-- `TPrimitive = string | number | boolean` (part_001, line 1). -/
inductive TPrimitive where
  | str (s : String)
  | num (n : Int)
  | bool (b : Bool)
deriving DecidableEq

/-- A params value: a primitive or an array of primitives
(`Record<string, TPrimitive | TPrimitive[]>`, part_001 line 13). -/
inductive PValue where
  | prim (p : TPrimitive)
  | arr (l : List TPrimitive)
deriving DecidableEq

/-- JS template-literal coercion `${v}` of a primitive. -/
def TPrimitive.render : TPrimitive → String
  | .str s => s
  | .num n => toString n
  | .bool b => cond b "true" "false"

/-- Uppercase hex digit (used by `encodeURIComponent` percent escapes). -/
def hexUpper (n : Nat) : Char :=
  if n < 10 then Char.ofNat (48 + n) else Char.ofNat (55 + n)

/-- Lowercase hex digit (used by `JSON.stringify` \u escapes). -/
def hexLower (n : Nat) : Char :=
  if n < 10 then Char.ofNat (48 + n) else Char.ofNat (87 + n)

/-- UTF-8 bytes of a character (as naturals below 256). -/
def utf8Bytes (c : Char) : List Nat :=
  let n := c.toNat
  if n < 0x80 then [n]
  else if n < 0x800 then [0xC0 + n / 0x40, 0x80 + n % 0x40]
  else if n < 0x10000 then
    [0xE0 + n / 0x1000, 0x80 + n / 0x40 % 0x40, 0x80 + n % 0x40]
  else
    [0xF0 + n / 0x40000, 0x80 + n / 0x1000 % 0x40,
     0x80 + n / 0x40 % 0x40, 0x80 + n % 0x40]

/-- Characters `encodeURIComponent` leaves unescaped:
`A-Z a-z 0-9 - _ . ! ~ * ' ( )`. -/
def uriUnreserved (c : Char) : Bool :=
  (('A' ≤ c && c ≤ 'Z') || ('a' ≤ c && c ≤ 'z') || ('0' ≤ c && c ≤ '9')
    || c = '-' || c = '_' || c = '.' || c = '!' || c = '~' || c = '*'
    || c.toNat = 39 || c = '(' || c = ')')

/-- JS `encodeURIComponent`: percent-encode the UTF-8 bytes of every
character outside the unreserved set. -/
def encodeURIComponent (s : String) : String :=
  String.mk (s.data.flatMap fun c =>
    if uriUnreserved c then [c]
    else (utf8Bytes c).flatMap fun b => ['%', hexUpper (b / 16), hexUpper (b % 16)])

/-- `buildURL` (part_001 lines 244-258): append the query string built
from `params` to `url`, with `&` when `url` already contains `?`. -/
def buildURL (url : String) (params : Option (List (String × PValue))) : String :=
  match params with
  | none => url
  | some ps =>
    let queryString := String.intercalate "&" (ps.map fun kv =>
      match kv.2 with
      | .arr l =>
        encodeURIComponent kv.1 ++ "=" ++
          String.intercalate "," (l.map fun v => encodeURIComponent v.render)
      | .prim v => encodeURIComponent kv.1 ++ "=" ++ encodeURIComponent v.render)
    if url.contains '?' then url ++ "&" ++ queryString else url ++ "?" ++ queryString

/-- `JSON.stringify` escaping of one character inside a string literal. -/
def jsonEscapeChar (c : Char) : List Char :=
  if c = '"' then ['\\', '"']
  else if c = '\\' then ['\\', '\\']
  else if c.toNat = 8 then ['\\', 'b']
  else if c.toNat = 9 then ['\\', 't']
  else if c.toNat = 10 then ['\\', 'n']
  else if c.toNat = 12 then ['\\', 'f']
  else if c.toNat = 13 then ['\\', 'r']
  else if c.toNat < 32 then
    ['\\', 'u', '0', '0', hexLower (c.toNat / 16), hexLower (c.toNat % 16)]
  else [c]

/-- `JSON.stringify` of a string value. -/
def jsonQuote (s : String) : String :=
  "\"" ++ String.mk (s.data.flatMap jsonEscapeChar) ++ "\""

/-- `JSON.stringify` of a primitive. -/
def jsonPrim : TPrimitive → String
  | .str s => jsonQuote s
  | .num n => toString n
  | .bool b => cond b "true" "false"

/-- `JSON.stringify` of a params value. -/
def jsonPValue : PValue → String
  | .prim p => jsonPrim p
  | .arr l => "[" ++ String.intercalate "," (l.map jsonPrim) ++ "]"

/-- `JSON.stringify` of a params record (insertion order preserved). -/
def jsonParams (ps : List (String × PValue)) : String :=
  "\x7b" ++
    String.intercalate "," (ps.map fun kv => jsonQuote kv.1 ++ ":" ++ jsonPValue kv.2) ++
  "\x7d"

/-- `JSON.stringify({ url, params })` as built by `buildcacheKey`
(part_001 lines 304-309); an `undefined` `params` field is omitted. -/
def stringifyKeyObj (url : String) (params : Option (List (String × PValue))) : String :=
  "\x7b\"url\":" ++ jsonQuote url ++
    (match params with
     | none => ""
     | some ps => ",\"params\":" ++ jsonParams ps) ++ "\x7d"

/-- The UTF-16 code units of a string; JS `String.prototype.length`
and `charCodeAt` operate on these. -/
def utf16Units (s : String) : List Nat :=
  s.data.flatMap fun c =>
    if c.toNat < 0x10000 then [c.toNat]
    else [0xD800 + (c.toNat - 0x10000) / 0x400, 0xDC00 + (c.toNat - 0x10000) % 0x400]

/-- Wrap an integer into the signed 32-bit range, as JS `x & x` does. -/
def toInt32 (x : Int) : Int :=
  let m := x % 4294967296
  if m < 2147483648 then m else m - 4294967296

/-- One step of the hash loop (part_001 lines 295-298):
`hash = (hash << 5) - hash + char; hash = hash & hash`. -/
def hashStep (h : Int) (c : Nat) : Int :=
  toInt32 (toInt32 (h * 32) - h + (c : Int))

/-- Lowercase base-36 digit, as produced by JS `Number.toString(36)`. -/
def base36Digit (n : Nat) : Char :=
  if n < 10 then Char.ofNat (48 + n) else Char.ofNat (87 + n)

/-- Accumulate the base-36 digits of a natural. -/
def natToBase36Aux (n : Nat) (acc : List Char) : List Char :=
  if h : n = 0 then acc
  else natToBase36Aux (n / 36) (base36Digit (n % 36) :: acc)
termination_by n
decreasing_by exact Nat.div_lt_self (Nat.pos_of_ne_zero h) (by decide)

/-- JS `x.toString(36)` for a (32-bit) integer value. -/
def intToString36 (x : Int) : String :=
  if x = 0 then "0"
  else if x < 0 then "-" ++ String.mk (natToBase36Aux x.natAbs [])
  else String.mk (natToBase36Aux x.natAbs [])

/-- HTTP method (part_001 line 45). -/
inductive Method where
  | GET | POST | PUT | PATCH | DELETE
deriving DecidableEq

/-- A request body: a `FormData` value or any other (JSON-serialisable)
value, both carried as strings (part_001 line 47, line 530). -/
inductive Body where
  | form (s : String)
  | raw (s : String)
deriving DecidableEq

/-- The `cache` part of `THttpConfig` (part_001 lines 16-21); an absent
or `false` `enabled` are both falsy in the guards, so `enabled` is a
plain boolean, and `revalidate` stays optional. -/
structure CacheCfg where
  enabled : Bool
  revalidate : Option Nat
deriving DecidableEq

/-- `TApiConfig` (part_001 lines 39-52); the fields the embedded claims
consult.  `signal` / progress callbacks are absorbed into the network
oracle. -/
structure TApiConfig where
  url : String
  method : Option Method
  headers : Option (List (String × String))
  params : Option (List (String × PValue))
  body : Option Body
  cache : Option CacheCfg
  retry : Option Nat
deriving DecidableEq

/-- `TCacheEntry` (part_001 lines 30-37). -/
structure TCacheEntry (α : Type) where
  data : α
  timestamp : Nat
  ttl : Option Nat
deriving DecidableEq

/-- `TApiResponse` (part_001 lines 65-72). -/
structure TApiResponse (α : Type) where
  data : α
  cacheKey : Option String
  fromCache : Bool
deriving DecidableEq

/-- A `Response` as the pipeline observes it: its `ok` flag, status and
parsed body (json/text/blob parsing collapses to the body value). -/
structure Resp (α : Type) where
  ok : Bool
  status : Nat
  data : α
deriving DecidableEq

/-- An error thrown during the request lifecycle: an abort
(`DOMException` with name `AbortError`), a network failure, or the
`ApiMeta`/error object thrown for a non-ok response (whose construction
from the response body is abstracted to the status). -/
inductive FetchErr where
  | abort
  | network (msg : String)
  | http (status : Nat)
deriving DecidableEq

/-- The mutable cache fields of class `ApiInstance` (part_001 lines
276-278): the `cache` map (association list in `Map` insertion order),
the `cacheAccessOrder` array, and the `maxCacheSize` bound. -/
structure ApiState (α : Type) where
  cache : List (String × TCacheEntry α)
  cacheAccessOrder : List String
  maxCacheSize : Nat
deriving DecidableEq

deriving instance DecidableEq for Except

/-- Fresh state as built by the constructor (part_001 lines 284-286). -/
def initState (α : Type) (maxCacheSize : Nat) : ApiState α :=
  ⟨[], [], maxCacheSize⟩

/-- JS `Map.prototype.get` on the association list. -/
def mapGet (m : List (String × β)) (k : String) : Option β :=
  (m.find? fun p => p.1 == k).map (·.2)

/-- JS `Map.prototype.has`. -/
def mapHas (m : List (String × β)) (k : String) : Bool :=
  m.any fun p => p.1 == k

/-- JS `Map.prototype.set`: update in place when the key exists,
otherwise append (insertion order). -/
def mapSet (m : List (String × β)) (k : String) (v : β) : List (String × β) :=
  if mapHas m k then m.map fun p => if p.1 == k then (k, v) else p
  else m ++ [(k, v)]

/-- JS `Map.prototype.delete` (keys occur at most once). -/
def mapDelete (m : List (String × β)) (k : String) : List (String × β) :=
  m.filter fun p => !(p.1 == k)

/-- The update function of the `mapSet` overwrite branch. -/
def setFn (k : String) (v : β) (p : String × β) : String × β :=
  if p.1 == k then (k, v) else p

namespace ApiInstance

/-- `ApiInstance.hash` (part_001 lines 293-301): the 32-bit string hash
rendered in base 36, iterated over UTF-16 code units. -/
def hash (str : String) : String :=
  intToString36 ((utf16Units str).foldl hashStep 0)

/-- `ApiInstance.buildcacheKey` (part_001 lines 303-315): serialise
`{ url, params }`, switch to the hash above 200 UTF-16 units, and prefix
the instance `source`. -/
def buildcacheKey (source : String) (config : TApiConfig) : String :=
  let keyString := stringifyKeyObj config.url config.params
  if 200 < (utf16Units keyString).length then source ++ ":" ++ hash keyString
  else source ++ ":" ++ keyString

/-- `ApiInstance.getCacheEntry` (part_001 lines 475-486): look the key
up; on a hit splice the key out of `cacheAccessOrder` and push it to the
end. -/
def getCacheEntry (st : ApiState α) (key : String) :
    Option (TCacheEntry α) × ApiState α :=
  match mapGet st.cache key with
  | some entry =>
    (some entry, { st with cacheAccessOrder := st.cacheAccessOrder.erase key ++ [key] })
  | none => (none, st)

/-- `ApiInstance.setCacheEntry` (part_001 lines 488-502).  When the map
is at capacity and the key is new, `shift()` the oldest key and delete
it — but JS guards the delete with `if (oldestKey)`, which is false for
the empty-string key, so that key is shifted out of the order without
being deleted from the map.  Then set the entry and move the key to the
end of the order. -/
def setCacheEntry (st : ApiState α) (key : String) (entry : TCacheEntry α) :
    ApiState α :=
  let st1 :=
    if st.maxCacheSize ≤ st.cache.length ∧ ¬ mapHas st.cache key then
      match st.cacheAccessOrder with
      | [] => st
      | oldestKey :: rest =>
        if oldestKey = "" then { st with cacheAccessOrder := rest }
        else { st with cache := mapDelete st.cache oldestKey, cacheAccessOrder := rest }
    else st
  { st1 with
    cache := mapSet st1.cache key entry
    cacheAccessOrder := st1.cacheAccessOrder.erase key ++ [key] }

/-- `ApiInstance.removeCacheEntry` (part_001 lines 504-510). -/
def removeCacheEntry (st : ApiState α) (key : String) : ApiState α :=
  { st with
    cache := mapDelete st.cache key
    cacheAccessOrder := st.cacheAccessOrder.erase key }

/-- `ApiInstance.getCache` (part_001 lines 614-617). -/
def getCache (st : ApiState α) (key : String) : Option α × ApiState α :=
  let (entry, st') := getCacheEntry st key
  (entry.map (·.data), st')

/-- `ApiInstance.setCache` (part_001 lines 619-621); `now` stands for
the `Date.now()` call. -/
def setCache (st : ApiState α) (key : String) (data : α) (now : Nat)
    (ttl : Option Nat) : ApiState α :=
  setCacheEntry st key ⟨data, now, ttl⟩

/-- `ApiInstance.removeCache` (part_001 lines 623-625). -/
def removeCache (st : ApiState α) (key : String) : ApiState α :=
  removeCacheEntry st key

/-- `ApiInstance.clearCache` (part_001 lines 627-630). -/
def clearCache (st : ApiState α) : ApiState α :=
  { st with cache := [], cacheAccessOrder := [] }

/-- One attempt inside the retry loop (part_001 lines 419-437): the
fetch either rejects, or resolves with a response; a non-ok response is
turned into a thrown `ApiMeta`/error value (abstracted to its status). -/
def fetchAttempt (outcome : Except FetchErr (Resp α)) : Except FetchErr (Resp α) :=
  match outcome with
  | .ok r => if r.ok then .ok r else .error (.http r.status)
  | .error e => .error e

/-- Observable run of the retry loop: its result, how many fetch
attempts were made, and the backoff delays (ms) that were awaited. -/
structure RetryRun (α : Type) where
  result : Except FetchErr (Resp α)
  attempts : Nat
  delays : List Nat

/-- The loop body of `fetchWithRetry` from attempt index `attempt` with
`remaining = retry - attempt` further attempts allowed (part_001 lines
417-450): a success returns; an `AbortError` is rethrown at once; at
`attempt === retry` the last error is rethrown; otherwise the loop
sleeps `2 ** attempt * 200` ms and retries. -/
def retryLoop (outcomes : Nat → Except FetchErr (Resp α)) (attempt : Nat) :
    Nat → RetryRun α
  | 0 =>
    match fetchAttempt (outcomes attempt) with
    | .ok r => ⟨.ok r, 1, []⟩
    | .error e => ⟨.error e, 1, []⟩
  | remaining + 1 =>
    match fetchAttempt (outcomes attempt) with
    | .ok r => ⟨.ok r, 1, []⟩
    | .error e =>
      if e = .abort then ⟨.error e, 1, []⟩
      else
        let rest := retryLoop outcomes (attempt + 1) remaining
        ⟨rest.result, rest.attempts + 1, 2 ^ attempt * 200 :: rest.delays⟩

/-- `ApiInstance.fetchWithRetry` (part_001 lines 406-452), over an
oracle giving each attempt's outcome. -/
def fetchWithRetry (outcomes : Nat → Except FetchErr (Resp α)) (retry : Nat) :
    RetryRun α :=
  retryLoop outcomes 0 retry

end ApiInstance

/-- `IApiInterceptor` (part_001 lines 74-92): optional request,
response and error hooks; each may also reject, hence `Except`. -/
structure IApiInterceptor (α : Type) where
  request : Option (TApiConfig → Except FetchErr TApiConfig)
  response : Option (Resp α → Except FetchErr (Resp α))
  error : Option (FetchErr → Except FetchErr (TApiResponse α))

/-- No interceptors registered (the constructor default). -/
def noInterceptors (α : Type) : IApiInterceptor α := ⟨none, none, none⟩

namespace ApiInstance

/-- `ApiInstance.handleInterceptors` (part_001 lines 454-459). -/
def handleInterceptors (ints : IApiInterceptor α) (config : TApiConfig) :
    Except FetchErr TApiConfig :=
  match ints.request with
  | some f => f config
  | none => .ok config

/-- `ApiInstance.handleResponse` (part_001 lines 461-466). -/
def handleResponse (ints : IApiInterceptor α) (response : Resp α) :
    Except FetchErr (Resp α) :=
  match ints.response with
  | some f => f response
  | none => .ok response

/-- `ApiInstance.handleError` (part_001 lines 468-473): with an error
interceptor the request resolves (or rejects) with its result; without
one the error is rethrown. -/
def handleError (ints : IApiInterceptor α) (error : FetchErr) :
    Except FetchErr (TApiResponse α) :=
  match ints.error with
  | some f => f error
  | none => .error error

/-- The expiry test of the cache branch (part_001 line 520):
`cached.ttl && Date.now() - cached.timestamp > cached.ttl`.  A missing
ttl and a ttl of `0` are both falsy, so neither ever counts as
expired. -/
def expired (entry : TCacheEntry α) (now : Nat) : Bool :=
  match entry.ttl with
  | none => false
  | some t => !(t == 0) && decide (t < now - entry.timestamp)

/-- The guard of both cache blocks (part_001 lines 517 and 580):
`finalConfig.cache && finalConfig.cache.enabled && finalConfig.method === "GET"`. -/
def cacheGuard (config : TApiConfig) : Bool :=
  (match config.cache with
   | some cc => cc.enabled
   | none => false) && config.method == some .GET

/-- The `RequestInit` passed to `fetchWithRetry` (part_001 lines
534-546): method, merged headers, body. -/
structure ReqInit where
  method : String
  headers : List (String × String)
  body : Option String
deriving DecidableEq

/-- JS object spread `{ ...a, ...b }` on string records. -/
def objSpread (a b : List (String × String)) : List (String × String) :=
  (a.map fun p =>
    match mapGet b p.1 with
    | some v => (p.1, v)
    | none => p) ++ b.filter fun q => !(mapHas a q.1)

/-- Render a method for the `RequestInit` (`finalConfig.method || "GET"`). -/
def methodName : Method → String
  | .GET => "GET"
  | .POST => "POST"
  | .PUT => "PUT"
  | .PATCH => "PATCH"
  | .DELETE => "DELETE"

/-- Build the `RequestInit` of part_001 lines 534-546: default to GET,
merge the content-type header (absent for `FormData`), instance default
headers and per-request headers, and serialise a non-`FormData` body
with `JSON.stringify` — the body goes through the truthiness test
`finalConfig.body ? JSON.stringify(finalConfig.body) : undefined`, so a
non-`FormData` empty-string body is falsy and no body is sent. -/
def mkInit (defaultHeaders : List (String × String)) (config : TApiConfig) : ReqInit :=
  let isFormData := match config.body with
    | some (.form _) => true
    | _ => false
  { method := match config.method with
      | some m => methodName m
      | none => "GET"
    headers :=
      objSpread
        (objSpread (if isFormData then [] else [("Content-Type", "application/json")])
          defaultHeaders)
        (config.headers.getD [])
    body := match config.body with
      | some (.form s) => some s
      | some (.raw s) => if s = "" then none else some (jsonQuote s)
      | none => none }

/-- Everything `request` makes observable: its settled value, the cache
state left behind, and the network interaction (whether a fetch was
issued, with which URL and `RequestInit`, and under which cache key). -/
structure RequestOutcome (α : Type) where
  result : Except FetchErr (TApiResponse α)
  state : ApiState α
  didFetch : Bool
  fetchedURL : Option String
  fetchedInit : Option ReqInit
  keyUsed : Option String

/-- The network-facing tail of `request` (part_001 lines 528-588): build
the final URL, fetch with retry, run the response interceptor, throw on
a non-ok final response, parse, and store into the cache when the cache
guard holds. -/
def requestNet (ints : IApiInterceptor α) (baseURL : String)
    (defaultHeaders : List (String × String)) (st : ApiState α)
    (finalConfig : TApiConfig) (cacheKey : String) (now : Nat)
    (net : String → Nat → Except FetchErr (Resp α)) : RequestOutcome α :=
  let url := baseURL ++ finalConfig.url
  let finalURL := buildURL url finalConfig.params
  let init := mkInit defaultHeaders finalConfig
  let run := fetchWithRetry (net finalURL) (finalConfig.retry.getD 0)
  match run.result with
  | .error e => ⟨.error e, st, true, some finalURL, some init, some cacheKey⟩
  | .ok raw =>
    match handleResponse ints raw with
    | .error e => ⟨.error e, st, true, some finalURL, some init, some cacheKey⟩
    | .ok finalResponse =>
      if finalResponse.ok then
        let data := finalResponse.data
        if cacheGuard finalConfig then
          let st' := setCacheEntry st cacheKey
            ⟨data, now, finalConfig.cache.bind (·.revalidate)⟩
          ⟨.ok ⟨data, some cacheKey, false⟩, st', true, some finalURL, some init,
            some cacheKey⟩
        else
          ⟨.ok ⟨data, some cacheKey, false⟩, st, true, some finalURL, some init,
            some cacheKey⟩
      else
        ⟨.error (.http finalResponse.status), st, true, some finalURL, some init,
          some cacheKey⟩

/-- The `try` block of `request` (part_001 lines 513-588): apply the
request interceptor, build the cache key, serve a fresh cached entry /
drop a stale one, then run the network tail. -/
def requestTry (ints : IApiInterceptor α) (baseURL source : String)
    (defaultHeaders : List (String × String)) (st : ApiState α)
    (config : TApiConfig) (now : Nat)
    (net : String → Nat → Except FetchErr (Resp α)) : RequestOutcome α :=
  match handleInterceptors ints config with
  | .error e => ⟨.error e, st, false, none, none, none⟩
  | .ok finalConfig =>
    let cacheKey := buildcacheKey source finalConfig
    if cacheGuard finalConfig then
      let (cached, st1) := getCacheEntry st cacheKey
      match cached with
      | some entry =>
        if expired entry now then
          requestNet ints baseURL defaultHeaders (removeCacheEntry st1 cacheKey)
            finalConfig cacheKey now net
        else
          ⟨.ok ⟨entry.data, some cacheKey, true⟩, st1, false, none, none, some cacheKey⟩
      | none => requestNet ints baseURL defaultHeaders st1 finalConfig cacheKey now net
    else requestNet ints baseURL defaultHeaders st finalConfig cacheKey now net

/-- `ApiInstance.request` (part_001 lines 512-592): the `try` block
above wrapped in the `catch` that routes every lifecycle error through
`handleError`. -/
def request (ints : IApiInterceptor α) (baseURL source : String)
    (defaultHeaders : List (String × String)) (st : ApiState α)
    (config : TApiConfig) (now : Nat)
    (net : String → Nat → Except FetchErr (Resp α)) : RequestOutcome α :=
  let inner := requestTry ints baseURL source defaultHeaders st config now net
  match inner.result with
  | .ok _ => inner
  | .error e => { inner with result := handleError ints e }

end ApiInstance

/-- One public operation on an `ApiInstance`, for reasoning about
arbitrary call sequences. -/
inductive Op (α : Type) where
  | req (ints : IApiInterceptor α) (baseURL source : String)
      (defaultHeaders : List (String × String)) (config : TApiConfig) (now : Nat)
      (net : String → Nat → Except FetchErr (Resp α))
  | getC (key : String)
  | setC (key : String) (data : α) (now : Nat) (ttl : Option Nat)
  | removeC (key : String)
  | clearC

/-- The cache-state effect of one operation. -/
def stepOp (st : ApiState α) : Op α → ApiState α
  | .req ints baseURL source defaultHeaders config now net =>
    (ApiInstance.request ints baseURL source defaultHeaders st config now net).state
  | .getC key => (ApiInstance.getCache st key).2
  | .setC key data now ttl => ApiInstance.setCache st key data now ttl
  | .removeC key => ApiInstance.removeCache st key
  | .clearC => ApiInstance.clearCache st

/-- Run a call sequence from the constructor state. -/
def runOps (α : Type) (maxCacheSize : Nat) (ops : List (Op α)) : ApiState α :=
  ops.foldl stepOp (initState α maxCacheSize)

/-- A `setCache` with the empty-string key trips the falsy
`if (oldestKey)` eviction guard; operations avoiding it are `keyOk`. -/
def opKeyOk : Op α → Bool
  | .setC key _ _ _ => key ≠ ""
  | _ => true

/-- The keys of the cache map. -/
def cacheKeys (st : ApiState α) : List String :=
  st.cache.map Prod.fst

/-- The bounded-LRU bookkeeping invariant: the map respects
`maxCacheSize`, its keys are distinct, and `cacheAccessOrder` holds
exactly those keys, each once. -/
def cacheInv (st : ApiState α) : Prop :=
  st.cache.length ≤ st.maxCacheSize ∧ (cacheKeys st).Nodup ∧
    st.cacheAccessOrder.Perm (cacheKeys st)

instance (st : ApiState α) : Decidable (cacheInv st) := by
  unfold cacheInv; infer_instance

/-- `cacheInv` strengthened with the absence of the empty-string key,
the one key on which the `if (oldestKey)` eviction guard misfires. -/
def fullInv (st : ApiState α) : Prop :=
  cacheInv st ∧ "" ∉ st.cacheAccessOrder

/-- Timed cache operation: a read (`getCache` / a request cache hit), a
write (`setCache` / a response being cached), a removal, or a clear. -/
inductive TOp (α : Type) where
  | tget (key : String)
  | tset (key : String) (data : α) (now : Nat) (ttl : Option Nat)
  | tremove (key : String)
  | tclear

/-- Cache state instrumented with a ghost record of each key's last
read/write time (`clock` counts operations). -/
structure TimedState (α : Type) where
  st : ApiState α
  lastAccess : List (String × Nat)
  clock : Nat

/-- Last-access time of a key (0 when never accessed). -/
def laGet (la : List (String × Nat)) (k : String) : Nat :=
  (mapGet la k).getD 0

/-- One timed step: the cache changes exactly as the operation dictates;
a successful read and every write stamp the key with the clock. -/
def tstep (ts : TimedState α) : TOp α → TimedState α
  | .tget key =>
    let (entry, st') := ApiInstance.getCacheEntry ts.st key
    { st := st'
      lastAccess := if entry.isSome then mapSet ts.lastAccess key ts.clock else ts.lastAccess
      clock := ts.clock + 1 }
  | .tset key data now ttl =>
    { st := ApiInstance.setCache ts.st key data now ttl
      lastAccess := mapSet ts.lastAccess key ts.clock
      clock := ts.clock + 1 }
  | .tremove key =>
    { st := ApiInstance.removeCache ts.st key
      lastAccess := ts.lastAccess
      clock := ts.clock + 1 }
  | .tclear =>
    { st := ApiInstance.clearCache ts.st
      lastAccess := ts.lastAccess
      clock := ts.clock + 1 }

/-- Run a timed sequence from the constructor state. -/
def runTimed (α : Type) (maxCacheSize : Nat) (ops : List (TOp α)) : TimedState α :=
  ops.foldl tstep ⟨initState α maxCacheSize, [], 0⟩

/-- Timed operations avoiding the empty-string key on writes. -/
def topKeyOk : TOp α → Bool
  | .tset key _ _ _ => key ≠ ""
  | _ => true

/-- Invariant of timed runs: the plain bookkeeping invariant, plus
`cacheAccessOrder` being strictly sorted by last-access time, all access
times lying below the clock. -/
def timedInv (ts : TimedState α) : Prop :=
  fullInv ts.st ∧
    ts.st.cacheAccessOrder.Pairwise
      (fun a b => laGet ts.lastAccess a < laGet ts.lastAccess b) ∧
    ∀ k ∈ ts.st.cacheAccessOrder, laGet ts.lastAccess k < ts.clock

/-- `JSON.stringify({ url, method, request })`, the deduplication key of
`useMutation.mutate` (part_001 line 967); `reqJson` is the
serialisation of the `request` payload, omitted when `undefined`. -/
def mutateKey (url method : String) (reqJson : Option String) : String :=
  "\x7b\"url\":" ++ jsonQuote url ++ ",\"method\":" ++ jsonQuote method ++
    (match reqJson with
     | none => ""
     | some r => ",\"request\":" ++ r) ++ "\x7d"

/-- What the synchronous part of a `mutate` call yields: the promise
handed to the caller, the pending map it leaves, and whether a new
request was issued. -/
structure MutStart where
  returned : Nat
  pending : List (String × Nat)
  issued : Bool
deriving DecidableEq

/-- `useMutation.mutate` up to its first suspension (part_001 lines
969-1003, with the `finally` of lines 1015-1017 applied on the early
return): a key already in `pendingRequests` short-circuits to the
stored promise (whereupon the `finally` deletes the key); otherwise a
fresh request promise is created and registered under the key. -/
def mutateStart (pending : List (String × Nat)) (key : String) (fresh : Nat) :
    MutStart :=
  if mapHas pending key then
    ⟨(mapGet pending key).getD fresh, mapDelete pending key, false⟩
  else
    ⟨fresh, mapSet pending key fresh, true⟩

/-- The `finally` of a `mutate` call whose awaited request settled
(success or error): its key is deleted from `pendingRequests`
(part_001 line 1016). -/
def mutateFinish (pending : List (String × Nat)) (key : String) :
    List (String × Nat) :=
  mapDelete pending key

/-- The reactive state of `useInfiniteFetch` (part_001 lines
1039-1044). -/
structure InfState (page : Type) where
  items : List page
  offset : Int
  hasNextPage : Bool
  isFetchingNextPage : Bool
  error : Option FetchErr
deriving DecidableEq

/-- Initial hook state (`items = []`, `offset = initialOffset`,
`hasNextPage = true`). -/
def infInit (page : Type) (initialOffset : Int) : InfState page :=
  ⟨[], initialOffset, true, false, none⟩

/-- `useInfiniteFetch.fetchPage` (part_001 lines 1056-1093) with the
page request's settlement abstracted as `net`.  On success,
`setItems(prev => append ? [...prev, data] : [data])` accumulates via
the functional updater, so the items come from the current state `st`;
but the `setOffset(data, append ? [...items, data] : [data],
offsetValue)` call on line 1074 reads the `items` binding captured by
the `useCallback` closure, whose dependency array (line 1092) is
`[url, stableConfig, offsetKey]` and omits `items` — while those stay
unchanged the callback is never recreated, so this binding keeps the
value from the render that created it (on an unchanged hook, the mount
value `[]`).  That captured list is the `closureItems` parameter.
`null`/`undefined` from `setOffset` turns `hasNextPage` off, any other
value becomes the next offset; a non-abort error is recorded; the
`finally` clears both loading flags. -/
def fetchPage (setOffset : page → List page → Int → Option Int)
    (net : Except FetchErr page) (st : InfState page)
    (closureItems : List page) (offsetValue : Int) (append : Bool) :
    InfState page :=
  match net with
  | .ok data =>
    let newItems := if append then st.items ++ [data] else [data]
    let st' := { st with
      items := newItems
      error := none
      isFetchingNextPage := false }
    match setOffset data (if append then closureItems ++ [data] else [data])
        offsetValue with
    | none => { st' with hasNextPage := false }
    | some nextOffset => { st' with hasNextPage := true, offset := nextOffset }
  | .error e =>
    { st with
      error := if e = .abort then st.error else some e
      isFetchingNextPage := false }

/-- `useInfiniteFetch.fetchNextPage` (part_001 lines 1095-1098): bail
out when there is no next page or a fetch is already running, else
fetch at the current offset in append mode; `closureItems` is the list
the `fetchPage` closure holds (see `fetchPage`).  The boolean reports
whether a fetch was performed. -/
def fetchNextPage (setOffset : page → List page → Int → Option Int)
    (net : Except FetchErr page) (st : InfState page)
    (closureItems : List page) : InfState page × Bool :=
  if !st.hasNextPage || st.isFetchingNextPage then (st, false)
  else (fetchPage setOffset net st closureItems st.offset true, true)

/-- Iterate `fetchNextPage` over a list of network settlements; the
closure list stays fixed because the callback is never recreated while
its dependencies are unchanged. -/
def fetchNextPages (setOffset : page → List page → Int → Option Int)
    (nets : List (Except FetchErr page)) (st : InfState page)
    (closureItems : List page) : InfState page :=
  nets.foldl (fun s n => (fetchNextPage setOffset n s closureItems).1) st

/-- Whether an attempt outcome (after the `res.ok` check) is a
success. -/
def isOkOutcome : Except FetchErr (Resp α) → Bool
  | .ok _ => true
  | .error _ => false

/-! ### Association-map lemmas -/

theorem mapHas_cons (p : String × β) (m : List (String × β)) (k : String) :
    mapHas (p :: m) k = ((p.1 == k) || mapHas m k) := by
  simp [mapHas]

theorem mapHas_iff_mem_keys (m : List (String × β)) (k : String) :
    mapHas m k = true ↔ k ∈ m.map Prod.fst := by
  induction m with
  | nil => simp [mapHas]
  | cons p t ih =>
    rw [mapHas_cons]
    by_cases hp : (p.1 == k) = true
    · simp [hp, eq_of_beq hp]
    · simp only [hp, Bool.false_or, List.map, List.mem_cons]
      rw [ih]
      constructor
      · exact Or.inr
      · rintro (h | h)
        · exact absurd (beq_iff_eq.mpr h.symm) (by simpa using hp)
        · exact h

theorem mapSet_eq_of_has (m : List (String × β)) (k : String) (v : β)
    (h : mapHas m k = true) : mapSet m k v = m.map (setFn k v) := by
  unfold mapSet setFn
  rw [if_pos h]

theorem mapSet_eq_of_not_has (m : List (String × β)) (k : String) (v : β)
    (h : mapHas m k = false) : mapSet m k v = m ++ [(k, v)] := by
  unfold mapSet
  rw [h]
  simp

theorem mapGet_cons (p : String × β) (m : List (String × β)) (k : String) :
    mapGet (p :: m) k = if p.1 == k then some p.2 else mapGet m k := by
  cases hp : (p.1 == k) <;> simp [mapGet, List.find?, hp]

theorem mapGet_mapSet_self (m : List (String × β)) (k : String) (v : β) :
    mapGet (mapSet m k v) k = some v := by
  cases h : mapHas m k with
  | true =>
    rw [mapSet_eq_of_has m k v h]
    induction m with
    | nil => simp [mapHas] at h
    | cons p t ih =>
      rw [mapHas_cons] at h
      cases hp : (p.1 == k) with
      | true => simp [setFn, mapGet_cons, hp]
      | false =>
        rw [hp, Bool.false_or] at h
        rw [List.map_cons, mapGet_cons]
        simp only [setFn, hp]
        rw [if_neg (by simp [hp])]
        exact ih h
  | false =>
    rw [mapSet_eq_of_not_has m k v h]
    induction m with
    | nil => simp [mapGet_cons]
    | cons p t ih =>
      rw [mapHas_cons] at h
      cases hp : (p.1 == k) with
      | true => rw [hp, Bool.true_or] at h; exact absurd h (by simp)
      | false =>
        rw [hp, Bool.false_or] at h
        rw [List.cons_append, mapGet_cons, if_neg (by simp [hp])]
        exact ih h

theorem mapGet_mapSet_ne (m : List (String × β)) (k k' : String) (v : β)
    (hne : k' ≠ k) : mapGet (mapSet m k v) k' = mapGet m k' := by
  have hkk : (k == k') = false := by
    cases hq : (k == k') with
    | true => exact absurd (eq_of_beq hq).symm hne
    | false => rfl
  cases h : mapHas m k with
  | true =>
    rw [mapSet_eq_of_has m k v h]
    clear h
    induction m with
    | nil => simp [mapGet]
    | cons p t ih =>
      rw [List.map_cons, mapGet_cons, mapGet_cons]
      cases hp : (p.1 == k) with
      | true =>
        have hp' : (p.1 == k') = false := by
          cases hq : (p.1 == k') with
          | true => exact absurd ((eq_of_beq hq).symm.trans (eq_of_beq hp)) hne
          | false => rfl
        simp only [setFn, hp, if_true, hkk, hp', if_false]
        exact ih
      | false =>
        simp only [setFn, hp, if_false]
        rw [if_congr (Iff.rfl) rfl rfl]
        cases hq : (p.1 == k') <;> simp [hq, ih]
  | false =>
    rw [mapSet_eq_of_not_has m k v h]
    clear h
    induction m with
    | nil => simp [mapGet_cons, hkk]
    | cons p t ih =>
      rw [List.cons_append, mapGet_cons, mapGet_cons]
      cases hq : (p.1 == k') <;> simp [hq, ih]

theorem keys_mapSet_of_has (m : List (String × β)) (k : String) (v : β)
    (h : mapHas m k = true) : (mapSet m k v).map Prod.fst = m.map Prod.fst := by
  rw [mapSet_eq_of_has m k v h]
  clear h
  induction m with
  | nil => rfl
  | cons p t ih =>
    rw [List.map_cons, List.map_cons, List.map_cons, ih]
    cases hp : (p.1 == k) with
    | true => simp [setFn, hp, eq_of_beq hp]
    | false => simp [setFn, hp]

theorem keys_mapSet_of_not_has (m : List (String × β)) (k : String) (v : β)
    (h : mapHas m k = false) :
    (mapSet m k v).map Prod.fst = m.map Prod.fst ++ [k] := by
  rw [mapSet_eq_of_not_has m k v h]
  simp

theorem keys_mapDelete (m : List (String × β)) (k : String) :
    (mapDelete m k).map Prod.fst = (m.map Prod.fst).filter (fun x => !(x == k)) := by
  induction m with
  | nil => rfl
  | cons p t ih =>
    cases hp : (p.1 == k) with
    | true => simpa [mapDelete, List.filter, hp] using ih
    | false => simpa [mapDelete, List.filter, hp] using ih

theorem filter_ne_eq_erase (l : List String) (k : String) (h : l.Nodup) :
    l.filter (fun x => !(x == k)) = l.erase k := by
  induction l with
  | nil => rfl
  | cons a t ih =>
    cases ha : (a == k) with
    | true =>
      have hak : a = k := eq_of_beq ha
      have hkt : k ∉ t := hak ▸ (List.nodup_cons.mp h).1
      rw [List.filter, ha]
      simp only [Bool.not_true]
      rw [List.erase_cons, if_pos (by simp [hak])]
      apply List.filter_eq_self.mpr
      intro x hx
      cases hq : (x == k) with
      | true => exact absurd (eq_of_beq hq ▸ hx) hkt
      | false => simp
    | false =>
      rw [List.filter, ha]
      simp only [Bool.not_false]
      rw [List.erase_cons, if_neg (by simpa using ha), ih (List.nodup_cons.mp h).2]

theorem mapGet_isSome_eq_mapHas (m : List (String × β)) (k : String) :
    (mapGet m k).isSome = mapHas m k := by
  induction m with
  | nil => simp [mapGet, mapHas]
  | cons p t ih =>
    rw [mapGet_cons, mapHas_cons]
    cases hp : (p.1 == k) <;> simp [hp, ih]

theorem mapHas_mapSet_self (m : List (String × β)) (k : String) (v : β) :
    mapHas (mapSet m k v) k = true := by
  rw [← mapGet_isSome_eq_mapHas, mapGet_mapSet_self]
  rfl

theorem mapHas_mapSet_ne (m : List (String × β)) (k k' : String) (v : β)
    (hne : k' ≠ k) : mapHas (mapSet m k v) k' = mapHas m k' := by
  rw [← mapGet_isSome_eq_mapHas, mapGet_mapSet_ne m k k' v hne,
    mapGet_isSome_eq_mapHas]

theorem mapGet_mapDelete_self (m : List (String × β)) (k : String) :
    mapGet (mapDelete m k) k = none := by
  induction m with
  | nil => rfl
  | cons p t ih =>
    cases hp : (p.1 == k) with
    | true => simpa [mapDelete, List.filter, hp] using ih
    | false =>
      simp only [mapDelete, List.filter, hp, Bool.not_false] at ih ⊢
      rw [mapGet_cons, if_neg (by simp [hp])]
      exact ih

theorem mapGet_mapDelete_ne (m : List (String × β)) (k k' : String)
    (hne : k' ≠ k) : mapGet (mapDelete m k) k' = mapGet m k' := by
  induction m with
  | nil => rfl
  | cons p t ih =>
    cases hp : (p.1 == k) with
    | true =>
      have hp' : (p.1 == k') = false := by
        cases hq : (p.1 == k') with
        | true => exact absurd ((eq_of_beq hq).symm.trans (eq_of_beq hp)) hne
        | false => rfl
      simp only [mapDelete, List.filter, hp, Bool.not_true] at ih ⊢
      rw [mapGet_cons, if_neg (by simp [hp'])]
      exact ih
    | false =>
      simp only [mapDelete, List.filter, hp, Bool.not_false] at ih ⊢
      rw [mapGet_cons, mapGet_cons]
      cases hq : (p.1 == k') <;> simp [hq, ih]

theorem mapHas_mapDelete_self (m : List (String × β)) (k : String) :
    mapHas (mapDelete m k) k = false := by
  rw [← mapGet_isSome_eq_mapHas, mapGet_mapDelete_self]
  rfl

theorem mapHas_mapDelete_ne (m : List (String × β)) (k k' : String)
    (hne : k' ≠ k) : mapHas (mapDelete m k) k' = mapHas m k' := by
  rw [← mapGet_isSome_eq_mapHas, mapGet_mapDelete_ne m k k' hne,
    mapGet_isSome_eq_mapHas]

theorem length_mapSet_of_has (m : List (String × β)) (k : String) (v : β)
    (h : mapHas m k = true) : (mapSet m k v).length = m.length := by
  rw [mapSet_eq_of_has m k v h, List.length_map]

theorem length_mapSet_of_not_has (m : List (String × β)) (k : String) (v : β)
    (h : mapHas m k = false) : (mapSet m k v).length = m.length + 1 := by
  rw [mapSet_eq_of_not_has m k v h, List.length_append, List.length_cons,
    List.length_nil]

theorem length_mapDelete_le (m : List (String × β)) (k : String) :
    (mapDelete m k).length ≤ m.length :=
  List.length_filter_le _ m

theorem length_mapDelete_of_has (m : List (String × β)) (k : String)
    (hn : (m.map Prod.fst).Nodup) (h : mapHas m k = true) :
    (mapDelete m k).length = m.length - 1 := by
  have hkeys : (mapDelete m k).map Prod.fst = (m.map Prod.fst).erase k := by
    rw [keys_mapDelete, filter_ne_eq_erase _ _ hn]
  have := congrArg List.length hkeys
  rw [List.length_map] at this
  rw [this, List.length_erase_of_mem ((mapHas_iff_mem_keys m k).mp h),
    List.length_map]

theorem nodup_keys_mapSet (m : List (String × β)) (k : String) (v : β)
    (hn : (m.map Prod.fst).Nodup) : ((mapSet m k v).map Prod.fst).Nodup := by
  cases h : mapHas m k with
  | true => rw [keys_mapSet_of_has m k v h]; exact hn
  | false =>
    rw [keys_mapSet_of_not_has m k v h]
    have hk : k ∉ m.map Prod.fst := by
      intro hmem
      rw [(mapHas_iff_mem_keys m k).mpr hmem] at h
      cases h
    exact ((List.perm_append_singleton k _).nodup_iff).mpr
      (List.nodup_cons.mpr ⟨hk, hn⟩)

theorem nodup_keys_mapDelete (m : List (String × β)) (k : String)
    (hn : (m.map Prod.fst).Nodup) : ((mapDelete m k).map Prod.fst).Nodup := by
  rw [keys_mapDelete]
  exact hn.filter _

/-! ### C9: `getCache` after `setCache` -/

/-- C9: For every key, data, ttl and prior cache state, `getCache`
invoked right after `setCache` on that key returns the stored data; the
read consults no clock (neither `getCache` nor `getCacheEntry` takes a
time), so the round-trip is unaffected by how much time has passed —
only the request pipeline consults an entry's ttl. -/
theorem getCache_after_setCache {α : Type} (st : ApiState α) (k : String)
    (d : α) (now : Nat) (ttl : Option Nat) :
    (ApiInstance.getCache (ApiInstance.setCache st k d now ttl) k).1 = some d := by
  unfold ApiInstance.getCache ApiInstance.getCacheEntry ApiInstance.setCache
    ApiInstance.setCacheEntry
  simp only [mapGet_mapSet_self]
  rfl

/-! ### The LRU bookkeeping invariant and its preservation -/

theorem initState_fullInv (α : Type) (maxCacheSize : Nat) :
    fullInv (initState α maxCacheSize) := by
  refine ⟨⟨?_, ?_, ?_⟩, ?_⟩ <;> simp [initState, cacheKeys]

theorem getCacheEntry_eq_hit (st : ApiState α) (k : String) (e : TCacheEntry α)
    (hq : mapGet st.cache k = some e) :
    ApiInstance.getCacheEntry st k =
      (some e, { st with cacheAccessOrder := st.cacheAccessOrder.erase k ++ [k] }) := by
  unfold ApiInstance.getCacheEntry
  rw [hq]

theorem getCacheEntry_eq_miss (st : ApiState α) (k : String)
    (hq : mapGet st.cache k = none) :
    ApiInstance.getCacheEntry st k = (none, st) := by
  unfold ApiInstance.getCacheEntry
  rw [hq]

theorem getCacheEntry_cache (st : ApiState α) (k : String) :
    (ApiInstance.getCacheEntry st k).2.cache = st.cache := by
  unfold ApiInstance.getCacheEntry
  cases mapGet st.cache k <;> rfl

theorem getCacheEntry_max (st : ApiState α) (k : String) :
    (ApiInstance.getCacheEntry st k).2.maxCacheSize = st.maxCacheSize := by
  unfold ApiInstance.getCacheEntry
  cases mapGet st.cache k <;> rfl

/-- An order of the shape `l.erase k ++ [k]` with `k ∈ l` is a
permutation of `l`. -/
theorem erase_append_perm {l : List String} {k : String} (hk : k ∈ l) :
    (l.erase k ++ [k]).Perm l :=
  (List.perm_append_singleton _ _).trans (List.perm_cons_erase hk).symm

theorem getCacheEntry_fullInv (st : ApiState α) (k : String) (h : fullInv st) :
    fullInv (ApiInstance.getCacheEntry st k).2 := by
  cases hq : mapGet st.cache k with
  | none => rw [getCacheEntry_eq_miss st k hq]; exact h
  | some e =>
    rw [getCacheEntry_eq_hit st k e hq]
    obtain ⟨⟨hlen, hnodup, hperm⟩, hne⟩ := h
    have hk : k ∈ st.cacheAccessOrder := by
      have hhas : mapHas st.cache k = true := by
        rw [← mapGet_isSome_eq_mapHas, hq]; rfl
      exact hperm.mem_iff.mpr ((mapHas_iff_mem_keys _ _).mp hhas)
    refine ⟨⟨hlen, hnodup, (erase_append_perm hk).trans hperm⟩, ?_⟩
    intro hmem
    rcases List.mem_append.mp hmem with h1 | h1
    · exact hne (List.mem_of_mem_erase h1)
    · have : "" = k := by simpa using h1
      exact hne (this ▸ hk)

theorem setCacheEntry_eq_noevict (st : ApiState α) (k : String) (e : TCacheEntry α)
    (hc : ¬ (st.maxCacheSize ≤ st.cache.length ∧ ¬ mapHas st.cache k)) :
    ApiInstance.setCacheEntry st k e =
      { st with
        cache := mapSet st.cache k e
        cacheAccessOrder := st.cacheAccessOrder.erase k ++ [k] } := by
  unfold ApiInstance.setCacheEntry
  rw [if_neg hc]

theorem setCacheEntry_eq_evict (st : ApiState α) (k : String) (e : TCacheEntry α)
    (o : String) (rest : List String)
    (hc : st.maxCacheSize ≤ st.cache.length ∧ ¬ mapHas st.cache k)
    (hord : st.cacheAccessOrder = o :: rest) (ho : o ≠ "") :
    ApiInstance.setCacheEntry st k e =
      { st with
        cache := mapSet (mapDelete st.cache o) k e
        cacheAccessOrder := rest.erase k ++ [k] } := by
  unfold ApiInstance.setCacheEntry
  rw [if_pos hc, hord]
  dsimp only
  rw [if_neg ho]

theorem setCacheEntry_max (st : ApiState α) (k : String) (e : TCacheEntry α) :
    (ApiInstance.setCacheEntry st k e).maxCacheSize = st.maxCacheSize := by
  unfold ApiInstance.setCacheEntry
  split
  · split
    · rfl
    · split <;> rfl
  · rfl

theorem setCacheEntry_fullInv (st : ApiState α) (k : String) (e : TCacheEntry α)
    (hmax : 1 ≤ st.maxCacheSize) (hk : k ≠ "") (h : fullInv st) :
    fullInv (ApiInstance.setCacheEntry st k e) := by
  obtain ⟨⟨hlen, hnodup, hperm⟩, hne⟩ := h
  by_cases hc : st.maxCacheSize ≤ st.cache.length ∧ ¬ (mapHas st.cache k = true)
  · obtain ⟨hfull, hhas⟩ := hc
    have hhasf : mapHas st.cache k = false := by
      cases hq : mapHas st.cache k with
      | true => exact absurd hq hhas
      | false => rfl
    have hkk : k ∉ cacheKeys st := fun hmem =>
      hhas ((mapHas_iff_mem_keys _ _).mpr hmem)
    have hkord : k ∉ st.cacheAccessOrder := fun hmem => hkk (hperm.mem_iff.mp hmem)
    have hordlen : st.cacheAccessOrder.length = st.cache.length := by
      have := hperm.length_eq
      rwa [cacheKeys, List.length_map] at this
    cases hord : st.cacheAccessOrder with
    | nil =>
      rw [hord] at hordlen
      simp only [List.length_nil] at hordlen
      omega
    | cons o rest =>
      have ho : o ∈ st.cacheAccessOrder := by
        rw [hord]; exact List.mem_cons_self o rest
      have hone : o ≠ "" := fun hoe => hne (hoe ▸ ho)
      rw [setCacheEntry_eq_evict st k e o rest ⟨hfull, hhas⟩ hord hone]
      have hok : o ∈ cacheKeys st := hperm.mem_iff.mp ho
      have hko : k ≠ o := fun hko => hkk (hko ▸ hok)
      have hkeys1 : (mapDelete st.cache o).map Prod.fst = (cacheKeys st).erase o := by
        rw [keys_mapDelete, filter_ne_eq_erase (st.cache.map Prod.fst) o hnodup]
        rfl
      have hnodup1 : ((mapDelete st.cache o).map Prod.fst).Nodup :=
        nodup_keys_mapDelete _ _ hnodup
      have hrest : rest.Perm ((cacheKeys st).erase o) := by
        have h2 := hperm.erase o
        rw [hord, List.erase_cons_head] at h2
        exact h2
      have hhas1 : mapHas (mapDelete st.cache o) k = false := by
        rw [mapHas_mapDelete_ne _ _ _ hko, hhasf]
      have hlendel : (mapDelete st.cache o).length = st.cache.length - 1 :=
        length_mapDelete_of_has _ _ hnodup ((mapHas_iff_mem_keys _ _).mpr hok)
      have hkrest : k ∉ rest := fun hmem =>
        hkord (hord ▸ List.mem_cons_of_mem o hmem)
      have hlen1 : 1 ≤ st.cache.length := le_trans hmax hfull
      refine ⟨⟨?_, ?_, ?_⟩, ?_⟩
      · show (mapSet (mapDelete st.cache o) k e).length ≤ st.maxCacheSize
        rw [length_mapSet_of_not_has _ _ _ hhas1, hlendel]
        omega
      · exact nodup_keys_mapSet _ _ _ hnodup1
      · show (rest.erase k ++ [k]).Perm ((mapSet (mapDelete st.cache o) k e).map Prod.fst)
        rw [List.erase_of_not_mem hkrest, keys_mapSet_of_not_has _ _ _ hhas1, hkeys1]
        exact hrest.append_right [k]
      · intro hmem
        rcases List.mem_append.mp hmem with h1 | h1
        · exact hne (hord ▸ List.mem_cons_of_mem o (List.mem_of_mem_erase h1))
        · have h2 : "" = k := by simpa using h1
          exact hk h2.symm
  · rw [setCacheEntry_eq_noevict st k e hc]
    cases hq : mapHas st.cache k with
    | true =>
      have hkmem : k ∈ cacheKeys st := (mapHas_iff_mem_keys _ _).mp hq
      have hkord : k ∈ st.cacheAccessOrder := hperm.mem_iff.mpr hkmem
      refine ⟨⟨?_, ?_, ?_⟩, ?_⟩
      · show (mapSet st.cache k e).length ≤ st.maxCacheSize
        rw [length_mapSet_of_has _ _ _ hq]; exact hlen
      · exact nodup_keys_mapSet _ _ _ hnodup
      · show (st.cacheAccessOrder.erase k ++ [k]).Perm ((mapSet st.cache k e).map Prod.fst)
        rw [keys_mapSet_of_has _ _ _ hq]
        exact (erase_append_perm hkord).trans hperm
      · intro hmem
        rcases List.mem_append.mp hmem with h1 | h1
        · exact hne (List.mem_of_mem_erase h1)
        · have h2 : "" = k := by simpa using h1
          exact hk h2.symm
    | false =>
      have hkk : k ∉ cacheKeys st := fun hmem => by
        rw [(mapHas_iff_mem_keys _ _).mpr hmem] at hq; cases hq
      have hkord : k ∉ st.cacheAccessOrder := fun hmem => hkk (hperm.mem_iff.mp hmem)
      have hsmall : st.cache.length < st.maxCacheSize := by
        by_cases hfull : st.maxCacheSize ≤ st.cache.length
        · exact absurd ⟨hfull, by simp [hq]⟩ hc
        · omega
      refine ⟨⟨?_, ?_, ?_⟩, ?_⟩
      · show (mapSet st.cache k e).length ≤ st.maxCacheSize
        rw [length_mapSet_of_not_has _ _ _ hq]; omega
      · exact nodup_keys_mapSet _ _ _ hnodup
      · show (st.cacheAccessOrder.erase k ++ [k]).Perm ((mapSet st.cache k e).map Prod.fst)
        rw [List.erase_of_not_mem hkord, keys_mapSet_of_not_has _ _ _ hq]
        exact hperm.append_right [k]
      · intro hmem
        rcases List.mem_append.mp hmem with h1 | h1
        · exact hne (List.mem_of_mem_erase h1)
        · have h2 : "" = k := by simpa using h1
          exact hk h2.symm

theorem removeCacheEntry_max (st : ApiState α) (k : String) :
    (ApiInstance.removeCacheEntry st k).maxCacheSize = st.maxCacheSize := rfl

theorem removeCacheEntry_fullInv (st : ApiState α) (k : String) (h : fullInv st) :
    fullInv (ApiInstance.removeCacheEntry st k) := by
  obtain ⟨⟨hlen, hnodup, hperm⟩, hne⟩ := h
  refine ⟨⟨?_, ?_, ?_⟩, ?_⟩
  · exact le_trans (length_mapDelete_le _ _) hlen
  · exact nodup_keys_mapDelete _ _ hnodup
  · show (st.cacheAccessOrder.erase k).Perm ((mapDelete st.cache k).map Prod.fst)
    rw [keys_mapDelete, filter_ne_eq_erase (st.cache.map Prod.fst) k hnodup]
    exact hperm.erase k
  · exact fun hmem => hne (List.mem_of_mem_erase hmem)

theorem clearCache_fullInv (st : ApiState α) :
    fullInv (ApiInstance.clearCache st) := by
  refine ⟨⟨?_, ?_, ?_⟩, ?_⟩ <;> simp [ApiInstance.clearCache, cacheKeys]

theorem buildcacheKey_ne_empty (source : String) (c : TApiConfig) :
    ApiInstance.buildcacheKey source c ≠ "" := by
  have key : ∀ y : String, source ++ ":" ++ y ≠ "" := by
    intro y h
    have hl := congrArg String.length h
    rw [String.length_append, String.length_append] at hl
    have h1 : (":" : String).length = 1 := rfl
    have h2 : ("" : String).length = 0 := rfl
    omega
  unfold ApiInstance.buildcacheKey
  dsimp only
  split
  · exact key _
  · exact key _

theorem requestNet_fullInv (ints : IApiInterceptor α) (baseURL : String)
    (defaultHeaders : List (String × String)) (st : ApiState α)
    (finalConfig : TApiConfig) (cacheKey : String) (now : Nat)
    (net : String → Nat → Except FetchErr (Resp α)) (h : fullInv st)
    (hmax : 1 ≤ st.maxCacheSize) (hkey : cacheKey ≠ "") :
    fullInv (ApiInstance.requestNet ints baseURL defaultHeaders st finalConfig
      cacheKey now net).state := by
  unfold ApiInstance.requestNet
  dsimp only
  split
  · exact h
  · split
    · exact h
    · split
      · split
        · exact setCacheEntry_fullInv st cacheKey _ hmax hkey h
        · exact h
      · exact h

theorem requestNet_max (ints : IApiInterceptor α) (baseURL : String)
    (defaultHeaders : List (String × String)) (st : ApiState α)
    (finalConfig : TApiConfig) (cacheKey : String) (now : Nat)
    (net : String → Nat → Except FetchErr (Resp α)) :
    (ApiInstance.requestNet ints baseURL defaultHeaders st finalConfig
      cacheKey now net).state.maxCacheSize = st.maxCacheSize := by
  unfold ApiInstance.requestNet
  dsimp only
  split
  · rfl
  · split
    · rfl
    · split
      · split
        · exact setCacheEntry_max st cacheKey _
        · rfl
      · rfl

theorem requestTry_fullInv (ints : IApiInterceptor α) (baseURL source : String)
    (defaultHeaders : List (String × String)) (st : ApiState α)
    (config : TApiConfig) (now : Nat)
    (net : String → Nat → Except FetchErr (Resp α)) (h : fullInv st)
    (hmax : 1 ≤ st.maxCacheSize) :
    fullInv (ApiInstance.requestTry ints baseURL source defaultHeaders st config
      now net).state := by
  unfold ApiInstance.requestTry
  cases hI : ApiInstance.handleInterceptors ints config with
  | error e => exact h
  | ok finalConfig =>
    dsimp only
    have hkey : ApiInstance.buildcacheKey source finalConfig ≠ "" :=
      buildcacheKey_ne_empty source finalConfig
    split
    · cases hq : mapGet st.cache (ApiInstance.buildcacheKey source finalConfig) with
      | some entry =>
        rw [getCacheEntry_eq_hit st _ entry hq]
        dsimp only
        have h1 : fullInv (ApiInstance.getCacheEntry st
            (ApiInstance.buildcacheKey source finalConfig)).2 :=
          getCacheEntry_fullInv st _ h
        rw [getCacheEntry_eq_hit st _ entry hq] at h1
        have h1max : (ApiInstance.getCacheEntry st
            (ApiInstance.buildcacheKey source finalConfig)).2.maxCacheSize
              = st.maxCacheSize := getCacheEntry_max st _
        rw [getCacheEntry_eq_hit st _ entry hq] at h1max
        split
        · exact requestNet_fullInv _ _ _ _ _ _ _ _
            (removeCacheEntry_fullInv _ _ h1) (by rw [removeCacheEntry_max, h1max]; exact hmax)
            hkey
        · exact h1
      | none =>
        rw [getCacheEntry_eq_miss st _ hq]
        dsimp only
        exact requestNet_fullInv _ _ _ _ _ _ _ _ h hmax hkey
    · exact requestNet_fullInv _ _ _ _ _ _ _ _ h hmax hkey

theorem requestTry_max (ints : IApiInterceptor α) (baseURL source : String)
    (defaultHeaders : List (String × String)) (st : ApiState α)
    (config : TApiConfig) (now : Nat)
    (net : String → Nat → Except FetchErr (Resp α)) :
    (ApiInstance.requestTry ints baseURL source defaultHeaders st config
      now net).state.maxCacheSize = st.maxCacheSize := by
  unfold ApiInstance.requestTry
  cases hI : ApiInstance.handleInterceptors ints config with
  | error e => rfl
  | ok finalConfig =>
    dsimp only
    split
    · cases hq : mapGet st.cache (ApiInstance.buildcacheKey source finalConfig) with
      | some entry =>
        rw [getCacheEntry_eq_hit st _ entry hq]
        dsimp only
        split
        · rw [requestNet_max, removeCacheEntry_max]
        · rfl
      | none =>
        rw [getCacheEntry_eq_miss st _ hq]
        dsimp only
        rw [requestNet_max]
    · rw [requestNet_max]

theorem request_state_eq (ints : IApiInterceptor α) (baseURL source : String)
    (defaultHeaders : List (String × String)) (st : ApiState α)
    (config : TApiConfig) (now : Nat)
    (net : String → Nat → Except FetchErr (Resp α)) :
    (ApiInstance.request ints baseURL source defaultHeaders st config now net).state
      = (ApiInstance.requestTry ints baseURL source defaultHeaders st config
          now net).state := by
  unfold ApiInstance.request
  dsimp only
  split <;> rfl

theorem getCache_snd (st : ApiState α) (k : String) :
    (ApiInstance.getCache st k).2 = (ApiInstance.getCacheEntry st k).2 := by
  unfold ApiInstance.getCache
  cases ApiInstance.getCacheEntry st k
  rfl

theorem stepOp_fullInv (st : ApiState α) (op : Op α) (h : fullInv st)
    (hmax : 1 ≤ st.maxCacheSize) (hop : opKeyOk op = true) :
    fullInv (stepOp st op) := by
  cases op with
  | req ints baseURL source defaultHeaders config now net =>
    show fullInv (ApiInstance.request ints baseURL source defaultHeaders st
      config now net).state
    rw [request_state_eq]
    exact requestTry_fullInv _ _ _ _ _ _ _ _ h hmax
  | getC key =>
    show fullInv (ApiInstance.getCache st key).2
    rw [getCache_snd]
    exact getCacheEntry_fullInv st key h
  | setC key data now ttl =>
    exact setCacheEntry_fullInv st key _ hmax (by simpa [opKeyOk] using hop) h
  | removeC key => exact removeCacheEntry_fullInv st key h
  | clearC => exact clearCache_fullInv st

theorem stepOp_max (st : ApiState α) (op : Op α) :
    (stepOp st op).maxCacheSize = st.maxCacheSize := by
  cases op with
  | req ints baseURL source defaultHeaders config now net =>
    show (ApiInstance.request ints baseURL source defaultHeaders st
      config now net).state.maxCacheSize = st.maxCacheSize
    rw [request_state_eq, requestTry_max]
  | getC key =>
    show (ApiInstance.getCache st key).2.maxCacheSize = st.maxCacheSize
    rw [getCache_snd, getCacheEntry_max]
  | setC key data now ttl => exact setCacheEntry_max st key _
  | removeC key => rfl
  | clearC => rfl

theorem foldl_stepOp_inv (ops : List (Op α)) (st : ApiState α) (h : fullInv st)
    (hmax : 1 ≤ st.maxCacheSize) (hops : ops.all opKeyOk = true) :
    fullInv (ops.foldl stepOp st) ∧
      (ops.foldl stepOp st).maxCacheSize = st.maxCacheSize := by
  induction ops generalizing st with
  | nil => exact ⟨h, rfl⟩
  | cons op rest ih =>
    rw [List.all_cons, Bool.and_eq_true] at hops
    have h1 := stepOp_fullInv st op h hmax hops.1
    have h1m := stepOp_max st op
    have := ih (stepOp st op) h1 (h1m ▸ hmax) hops.2
    exact ⟨this.1, this.2.trans h1m⟩

/-! ### C2: the bounded-LRU invariant over operation sequences -/

/-- C2 (amended): for every `ApiInstance` with `maxCacheSize ≥ 1` and
every sequence of `request`/`getCache`/`setCache`/`removeCache`/
`clearCache` operations in which no `setCache` call uses the
empty-string key, the cache map never exceeds `maxCacheSize` entries and
`cacheAccessOrder` holds exactly the cache keys, each exactly once. -/
theorem cache_bounded_lru_inv (α : Type) (maxCacheSize : Nat) (ops : List (Op α))
    (hmax : 1 ≤ maxCacheSize) (hops : ops.all opKeyOk = true) :
    (runOps α maxCacheSize ops).cache.length ≤ maxCacheSize ∧
      (runOps α maxCacheSize ops).cacheAccessOrder.Perm
        (cacheKeys (runOps α maxCacheSize ops)) ∧
      (runOps α maxCacheSize ops).cacheAccessOrder.Nodup := by
  have h := foldl_stepOp_inv ops (initState α maxCacheSize)
    (initState_fullInv α maxCacheSize) hmax hops
  obtain ⟨⟨⟨hlen, hnodup, hperm⟩, _⟩, hm⟩ := h
  refine ⟨?_, hperm, hperm.nodup_iff.mpr hnodup⟩
  have hr : runOps α maxCacheSize ops = ops.foldl stepOp (initState α maxCacheSize) := rfl
  have hi : (initState α maxCacheSize).maxCacheSize = maxCacheSize := rfl
  rw [hr]
  omega

/-- C2 (witness): the amended invariant instantiated on a concrete
five-operation sequence with `maxCacheSize = 2`. -/
theorem cache_bounded_lru_inv_witness :
    (1 ≤ 2 ∧
      ([Op.setC "a" (0 : Nat) 0 none, Op.getC "a", Op.setC "b" 1 3 (some 5),
        Op.setC "c" 2 4 none, Op.removeC "b"].all opKeyOk = true)) ∧
    ((runOps Nat 2 [Op.setC "a" (0 : Nat) 0 none, Op.getC "a",
        Op.setC "b" 1 3 (some 5), Op.setC "c" 2 4 none,
        Op.removeC "b"]).cache.length ≤ 2 ∧
      (runOps Nat 2 [Op.setC "a" (0 : Nat) 0 none, Op.getC "a",
        Op.setC "b" 1 3 (some 5), Op.setC "c" 2 4 none,
        Op.removeC "b"]).cacheAccessOrder.Perm
          (cacheKeys (runOps Nat 2 [Op.setC "a" (0 : Nat) 0 none, Op.getC "a",
            Op.setC "b" 1 3 (some 5), Op.setC "c" 2 4 none, Op.removeC "b"])) ∧
      (runOps Nat 2 [Op.setC "a" (0 : Nat) 0 none, Op.getC "a",
        Op.setC "b" 1 3 (some 5), Op.setC "c" 2 4 none,
        Op.removeC "b"]).cacheAccessOrder.Nodup) :=
  ⟨⟨by decide, by decide⟩,
    cache_bounded_lru_inv Nat 2
      [Op.setC "a" (0 : Nat) 0 none, Op.getC "a", Op.setC "b" 1 3 (some 5),
        Op.setC "c" 2 4 none, Op.removeC "b"] (by decide) (by decide)⟩

/-- C2 (counterexample): with `maxCacheSize = 1`, a `setCache` under the
empty-string key followed by a `setCache` under `"x"` leaves two entries
in the cache map — the `if (oldestKey)` guard skips the eviction delete
for the falsy shifted key — so the map exceeds `maxCacheSize` and the
claimed invariant fails, and the empty-string key is in the cache map
but no longer in `cacheAccessOrder`. -/
theorem cache_bounded_lru_inv_counterexample :
    1 ≤ 1 ∧
      (runOps Nat 1 [Op.setC "" 7 0 none, Op.setC "x" 8 0 none]).cache.length = 2 ∧
      mapHas (runOps Nat 1 [Op.setC "" 7 0 none, Op.setC "x" 8 0 none]).cache "" = true ∧
      (runOps Nat 1 [Op.setC "" 7 0 none, Op.setC "x" 8 0 none]).cacheAccessOrder
        = ["x"] := by
  refine ⟨le_refl 1, ?_, ?_, ?_⟩ <;> decide

/-! ### C3: the evicted key is the least recently used -/

theorem laGet_mapSet_self (la : List (String × Nat)) (k : String) (c : Nat) :
    laGet (mapSet la k c) k = c := by
  unfold laGet
  rw [mapGet_mapSet_self]
  rfl

theorem laGet_mapSet_ne (la : List (String × Nat)) (k k' : String) (c : Nat)
    (h : k' ≠ k) : laGet (mapSet la k c) k' = laGet la k' := by
  unfold laGet
  rw [mapGet_mapSet_ne la k k' c h]

theorem pairwise_erase_append (la : List (String × Nat)) (clock : Nat)
    (k : String) (l : List String) (hnodup : l.Nodup)
    (hpw : l.Pairwise (fun a b => laGet la a < laGet la b))
    (hbound : ∀ a ∈ l, laGet la a < clock) :
    (l.erase k ++ [k]).Pairwise
      (fun a b => laGet (mapSet la k clock) a < laGet (mapSet la k clock) b) := by
  rw [List.pairwise_append]
  refine ⟨?_, List.pairwise_singleton _ _, ?_⟩
  · have hpw' := hpw.sublist (List.erase_sublist k l)
    refine hpw'.imp_of_mem ?_
    intro a b ha hb hab
    have hak : a ≠ k := fun h => (hnodup.mem_erase_iff.mp (h ▸ ha)).1 rfl
    have hbk : b ≠ k := fun h => (hnodup.mem_erase_iff.mp (h ▸ hb)).1 rfl
    rwa [laGet_mapSet_ne la k a clock hak, laGet_mapSet_ne la k b clock hbk]
  · intro a ha b hb
    have hb' : b = k := by simpa using hb
    have hak : a ≠ k := fun h => (hnodup.mem_erase_iff.mp (h ▸ ha)).1 rfl
    rw [hb', laGet_mapSet_ne la k a clock hak, laGet_mapSet_self]
    exact hbound a (List.mem_of_mem_erase ha)

theorem bound_erase_append (la : List (String × Nat)) (clock : Nat) (k : String)
    (l : List String) (hbound : ∀ a ∈ l, laGet la a < clock) :
    ∀ a ∈ l.erase k ++ [k], laGet (mapSet la k clock) a < clock + 1 := by
  intro a ha
  rcases List.mem_append.mp ha with h1 | h1
  · by_cases hak : a = k
    · subst hak; rw [laGet_mapSet_self]; omega
    · rw [laGet_mapSet_ne la k a clock hak]
      exact lt_trans (hbound a (List.mem_of_mem_erase h1)) (by omega)
  · have h2 : a = k := by simpa using h1
    subst h2; rw [laGet_mapSet_self]; omega

/-- The order list is duplicate-free under `fullInv`. -/
theorem order_nodup_of_fullInv (st : ApiState α) (h : fullInv st) :
    st.cacheAccessOrder.Nodup :=
  h.1.2.2.nodup_iff.mpr h.1.2.1

theorem tstep_timedInv (ts : TimedState α) (op : TOp α) (h : timedInv ts)
    (hmax : 1 ≤ ts.st.maxCacheSize) (hop : topKeyOk op = true) :
    timedInv (tstep ts op) := by
  obtain ⟨hfi, hpw, hbound⟩ := h
  have hnodup := order_nodup_of_fullInv ts.st hfi
  cases op with
  | tget key =>
    cases hq : mapGet ts.st.cache key with
    | none =>
      have heq : tstep ts (TOp.tget key) = ⟨ts.st, ts.lastAccess, ts.clock + 1⟩ := by
        unfold tstep
        dsimp only
        rw [getCacheEntry_eq_miss ts.st key hq]
        rfl
      rw [heq]
      refine ⟨hfi, hpw, ?_⟩
      intro a ha
      exact lt_trans (hbound a ha) (Nat.lt_succ_self ts.clock)
    | some entry =>
      have heq : tstep ts (TOp.tget key) =
          ⟨{ ts.st with cacheAccessOrder := ts.st.cacheAccessOrder.erase key ++ [key] },
            mapSet ts.lastAccess key ts.clock, ts.clock + 1⟩ := by
        unfold tstep
        dsimp only
        rw [getCacheEntry_eq_hit ts.st key entry hq]
        rfl
      rw [heq]
      have hfi' : fullInv (ApiInstance.getCacheEntry ts.st key).2 :=
        getCacheEntry_fullInv ts.st key hfi
      rw [getCacheEntry_eq_hit ts.st key entry hq] at hfi'
      refine ⟨hfi', ?_, ?_⟩
      · exact pairwise_erase_append _ _ _ _ hnodup hpw hbound
      · exact bound_erase_append _ _ _ _ hbound
  | tset key data now ttl =>
    have hkey : key ≠ "" := by simpa [topKeyOk] using hop
    have hfi' : fullInv (ApiInstance.setCacheEntry ts.st key ⟨data, now, ttl⟩) :=
      setCacheEntry_fullInv ts.st key _ hmax hkey hfi
    show timedInv ⟨ApiInstance.setCacheEntry ts.st key ⟨data, now, ttl⟩,
      mapSet ts.lastAccess key ts.clock, ts.clock + 1⟩
    by_cases hc : ts.st.maxCacheSize ≤ ts.st.cache.length ∧
        ¬ (mapHas ts.st.cache key = true)
    · have hordlen : ts.st.cacheAccessOrder.length = ts.st.cache.length := by
        have := hfi.1.2.2.length_eq
        rwa [cacheKeys, List.length_map] at this
      cases hord : ts.st.cacheAccessOrder with
      | nil =>
        rw [hord] at hordlen
        simp only [List.length_nil] at hordlen
        omega
      | cons o rest =>
        have ho : o ∈ ts.st.cacheAccessOrder := by
          rw [hord]; exact List.mem_cons_self o rest
        have hone : o ≠ "" := fun hoe => hfi.2 (hoe ▸ ho)
        rw [setCacheEntry_eq_evict ts.st key _ o rest hc hord hone] at hfi' ⊢
        have hrestnodup : rest.Nodup := by
          rw [hord] at hnodup
          exact (List.nodup_cons.mp hnodup).2
        have hrestpw : rest.Pairwise (fun a b => laGet ts.lastAccess a < laGet ts.lastAccess b) := by
          rw [hord] at hpw
          exact (List.pairwise_cons.mp hpw).2
        have hrestbound : ∀ a ∈ rest, laGet ts.lastAccess a < ts.clock := by
          intro a ha
          exact hbound a (hord ▸ List.mem_cons_of_mem o ha)
        exact ⟨hfi', pairwise_erase_append _ _ _ _ hrestnodup hrestpw hrestbound,
          bound_erase_append _ _ _ _ hrestbound⟩
    · rw [setCacheEntry_eq_noevict ts.st key _ hc] at hfi' ⊢
      exact ⟨hfi', pairwise_erase_append _ _ _ _ hnodup hpw hbound,
        bound_erase_append _ _ _ _ hbound⟩
  | tremove key =>
    show timedInv ⟨ApiInstance.removeCacheEntry ts.st key, ts.lastAccess, ts.clock + 1⟩
    refine ⟨removeCacheEntry_fullInv ts.st key hfi, ?_, ?_⟩
    · exact hpw.sublist (List.erase_sublist key ts.st.cacheAccessOrder)
    · intro a ha
      exact lt_trans (hbound a (List.mem_of_mem_erase ha)) (Nat.lt_succ_self ts.clock)
  | tclear =>
    show timedInv ⟨ApiInstance.clearCache ts.st, ts.lastAccess, ts.clock + 1⟩
    refine ⟨clearCache_fullInv ts.st, ?_, ?_⟩
    · exact List.Pairwise.nil
    · intro a ha
      cases ha

theorem tstep_max (ts : TimedState α) (op : TOp α) :
    (tstep ts op).st.maxCacheSize = ts.st.maxCacheSize := by
  cases op with
  | tget key =>
    show (ApiInstance.getCacheEntry ts.st key).2.maxCacheSize = _
    exact getCacheEntry_max ts.st key
  | tset key data now ttl => exact setCacheEntry_max ts.st key _
  | tremove key => rfl
  | tclear => rfl

theorem foldl_tstep_inv (ops : List (TOp α)) (ts : TimedState α) (h : timedInv ts)
    (hmax : 1 ≤ ts.st.maxCacheSize) (hops : ops.all topKeyOk = true) :
    timedInv (ops.foldl tstep ts) ∧
      (ops.foldl tstep ts).st.maxCacheSize = ts.st.maxCacheSize := by
  induction ops generalizing ts with
  | nil => exact ⟨h, rfl⟩
  | cons op rest ih =>
    rw [List.all_cons, Bool.and_eq_true] at hops
    have h1 := tstep_timedInv ts op h hmax hops.1
    have h1m := tstep_max ts op
    have := ih (tstep ts op) h1 (h1m ▸ hmax) hops.2
    exact ⟨this.1, this.2.trans h1m⟩

theorem runTimed_inv (α : Type) (maxCacheSize : Nat) (ops : List (TOp α))
    (hmax : 1 ≤ maxCacheSize) (hops : ops.all topKeyOk = true) :
    timedInv (runTimed α maxCacheSize ops) ∧
      (runTimed α maxCacheSize ops).st.maxCacheSize = maxCacheSize := by
  have hinit : timedInv (⟨initState α maxCacheSize, [], 0⟩ : TimedState α) := by
    refine ⟨initState_fullInv α maxCacheSize, List.Pairwise.nil, ?_⟩
    intro a ha
    cases ha
  exact foldl_tstep_inv ops _ hinit hmax hops

/-- C3 (amended): in every state reached by a sequence of timed cache
reads and writes that never writes the empty-string key, when
`setCacheEntry` inserts a fresh key into a cache at capacity, exactly
one existing entry is evicted — the head of `cacheAccessOrder` — and
that key's last read/write time is least among all keys in the cache. -/
theorem setCacheEntry_evicts_lru (α : Type) (maxCacheSize : Nat)
    (ops : List (TOp α)) (k : String) (e : TCacheEntry α)
    (hmax : 1 ≤ maxCacheSize) (hops : ops.all topKeyOk = true)
    (hfull : maxCacheSize ≤ (runTimed α maxCacheSize ops).st.cache.length)
    (hnew : mapHas (runTimed α maxCacheSize ops).st.cache k = false) :
    ∃ victim,
      (runTimed α maxCacheSize ops).st.cacheAccessOrder.head? = some victim ∧
      mapHas (runTimed α maxCacheSize ops).st.cache victim = true ∧
      (∀ k', mapHas (runTimed α maxCacheSize ops).st.cache k' = true →
        laGet (runTimed α maxCacheSize ops).lastAccess victim ≤
          laGet (runTimed α maxCacheSize ops).lastAccess k') ∧
      (ApiInstance.setCacheEntry (runTimed α maxCacheSize ops).st k e).cache.length
        = (runTimed α maxCacheSize ops).st.cache.length ∧
      mapHas (ApiInstance.setCacheEntry (runTimed α maxCacheSize ops).st k e).cache
        k = true ∧
      mapHas (ApiInstance.setCacheEntry (runTimed α maxCacheSize ops).st k e).cache
        victim = false ∧
      ∀ k', k' ≠ victim →
        mapHas (runTimed α maxCacheSize ops).st.cache k' = true →
        mapHas (ApiInstance.setCacheEntry (runTimed α maxCacheSize ops).st k e).cache
          k' = true := by
  obtain ⟨⟨hfi, hpw, hbound⟩, hm⟩ := runTimed_inv α maxCacheSize ops hmax hops
  set ts := runTimed α maxCacheSize ops with hts
  obtain ⟨⟨hlen, hnodup, hperm⟩, hnemp⟩ := hfi
  have hordlen : ts.st.cacheAccessOrder.length = ts.st.cache.length := by
    have := hperm.length_eq
    rwa [cacheKeys, List.length_map] at this
  have hfull' : ts.st.maxCacheSize ≤ ts.st.cache.length := by rw [hm]; exact hfull
  have hlen1 : 1 ≤ ts.st.cache.length := le_trans hmax (hm ▸ hfull')
  cases hord : ts.st.cacheAccessOrder with
  | nil =>
    rw [hord] at hordlen
    simp only [List.length_nil] at hordlen
    omega
  | cons v rest =>
    have hv : v ∈ ts.st.cacheAccessOrder := by
      rw [hord]; exact List.mem_cons_self v rest
    have hvne : v ≠ "" := fun hveq => hnemp (hveq ▸ hv)
    have hvk : v ∈ cacheKeys ts.st := hperm.mem_iff.mp hv
    have hkk : k ∉ cacheKeys ts.st := fun hmem => by
      rw [(mapHas_iff_mem_keys _ _).mpr hmem] at hnew; cases hnew
    have hkv : k ≠ v := fun hkv => hkk (hkv ▸ hvk)
    have hc : ts.st.maxCacheSize ≤ ts.st.cache.length ∧
        ¬ (mapHas ts.st.cache k = true) := ⟨hfull', by simp [hnew]⟩
    have heq := setCacheEntry_eq_evict ts.st k e v rest hc hord hvne
    have hhas1 : mapHas (mapDelete ts.st.cache v) k = false := by
      rw [mapHas_mapDelete_ne _ _ _ hkv, hnew]
    refine ⟨v, rfl, (mapHas_iff_mem_keys _ _).mpr hvk, ?_, ?_, ?_, ?_, ?_⟩
    · -- minimality of the victim's last access time
      intro k' hk'
      have hk'mem : k' ∈ cacheKeys ts.st := (mapHas_iff_mem_keys _ _).mp hk'
      have hk'ord : k' ∈ ts.st.cacheAccessOrder := hperm.mem_iff.mpr hk'mem
      rw [hord] at hk'ord
      rcases List.mem_cons.mp hk'ord with h1 | h1
      · rw [h1]
      · rw [hord] at hpw
        exact le_of_lt ((List.pairwise_cons.mp hpw).1 k' h1)
    · -- the cache size is unchanged: one out, one in
      rw [heq]
      show (mapSet (mapDelete ts.st.cache v) k e).length = ts.st.cache.length
      rw [length_mapSet_of_not_has _ _ _ hhas1,
        length_mapDelete_of_has _ _ hnodup ((mapHas_iff_mem_keys _ _).mpr hvk)]
      omega
    · -- the fresh key is present afterwards
      rw [heq]
      show mapHas (mapSet (mapDelete ts.st.cache v) k e) k = true
      exact mapHas_mapSet_self _ _ _
    · -- the victim is gone afterwards
      rw [heq]
      show mapHas (mapSet (mapDelete ts.st.cache v) k e) v = false
      rw [mapHas_mapSet_ne _ _ _ _ (Ne.symm hkv), mapHas_mapDelete_self]
    · -- every other key survives: only the victim is evicted
      intro k' hk'v hk'
      rw [heq]
      show mapHas (mapSet (mapDelete ts.st.cache v) k e) k' = true
      by_cases hk'k : k' = k
      · rw [hk'k]; exact mapHas_mapSet_self _ _ _
      · rw [mapHas_mapSet_ne _ _ _ _ hk'k, mapHas_mapDelete_ne _ _ _ hk'v]
        exact hk'

/-- C3 (witness): the amended eviction lemma applied to the state after
two writes at capacity 2, inserting the fresh key `"c"`; the victim is
the older key. -/
theorem setCacheEntry_evicts_lru_witness :
    (1 ≤ 2 ∧
      ([TOp.tset "a" (5 : Nat) 0 none, TOp.tset "b" 6 1 none].all topKeyOk = true) ∧
      2 ≤ (runTimed Nat 2 [TOp.tset "a" (5 : Nat) 0 none,
        TOp.tset "b" 6 1 none]).st.cache.length ∧
      mapHas (runTimed Nat 2 [TOp.tset "a" (5 : Nat) 0 none,
        TOp.tset "b" 6 1 none]).st.cache "c" = false) ∧
    (∃ victim,
      (runTimed Nat 2 [TOp.tset "a" (5 : Nat) 0 none,
        TOp.tset "b" 6 1 none]).st.cacheAccessOrder.head? = some victim ∧
      mapHas (runTimed Nat 2 [TOp.tset "a" (5 : Nat) 0 none,
        TOp.tset "b" 6 1 none]).st.cache victim = true ∧
      (∀ k', mapHas (runTimed Nat 2 [TOp.tset "a" (5 : Nat) 0 none,
          TOp.tset "b" 6 1 none]).st.cache k' = true →
        laGet (runTimed Nat 2 [TOp.tset "a" (5 : Nat) 0 none,
            TOp.tset "b" 6 1 none]).lastAccess victim ≤
          laGet (runTimed Nat 2 [TOp.tset "a" (5 : Nat) 0 none,
            TOp.tset "b" 6 1 none]).lastAccess k') ∧
      (ApiInstance.setCacheEntry (runTimed Nat 2 [TOp.tset "a" (5 : Nat) 0 none,
          TOp.tset "b" 6 1 none]).st "c" ⟨7, 2, none⟩).cache.length
        = (runTimed Nat 2 [TOp.tset "a" (5 : Nat) 0 none,
            TOp.tset "b" 6 1 none]).st.cache.length ∧
      mapHas (ApiInstance.setCacheEntry (runTimed Nat 2 [TOp.tset "a" (5 : Nat) 0 none,
          TOp.tset "b" 6 1 none]).st "c" ⟨7, 2, none⟩).cache "c" = true ∧
      mapHas (ApiInstance.setCacheEntry (runTimed Nat 2 [TOp.tset "a" (5 : Nat) 0 none,
          TOp.tset "b" 6 1 none]).st "c" ⟨7, 2, none⟩).cache victim = false ∧
      ∀ k', k' ≠ victim →
        mapHas (runTimed Nat 2 [TOp.tset "a" (5 : Nat) 0 none,
          TOp.tset "b" 6 1 none]).st.cache k' = true →
        mapHas (ApiInstance.setCacheEntry (runTimed Nat 2
          [TOp.tset "a" (5 : Nat) 0 none, TOp.tset "b" 6 1 none]).st "c"
            ⟨7, 2, none⟩).cache k' = true) :=
  ⟨⟨by decide, by decide, by decide, by decide⟩,
    setCacheEntry_evicts_lru Nat 2 [TOp.tset "a" (5 : Nat) 0 none,
      TOp.tset "b" 6 1 none] "c" ⟨7, 2, none⟩ (by decide) (by decide) (by decide)
      (by decide)⟩

/-- C3 (counterexample): after a `setCache` under the empty-string key
with `maxCacheSize = 1`, inserting the fresh key `"x"` into the
at-capacity cache evicts nothing at all — the falsy `if (oldestKey)`
guard skips the delete — so both entries remain and the claim that
exactly one existing entry is evicted fails. -/
theorem setCacheEntry_evicts_lru_counterexample :
    (runTimed Nat 1 [TOp.tset "" 7 0 none]).st.maxCacheSize
        ≤ (runTimed Nat 1 [TOp.tset "" 7 0 none]).st.cache.length ∧
      mapHas (runTimed Nat 1 [TOp.tset "" 7 0 none]).st.cache "x" = false ∧
      (ApiInstance.setCacheEntry (runTimed Nat 1 [TOp.tset "" 7 0 none]).st "x"
          ⟨8, 1, none⟩).cache.length
        = (runTimed Nat 1 [TOp.tset "" 7 0 none]).st.cache.length + 1 ∧
      mapHas (ApiInstance.setCacheEntry (runTimed Nat 1 [TOp.tset "" 7 0 none]).st
        "x" ⟨8, 1, none⟩).cache "" = true := by
  refine ⟨?_, ?_, ?_, ?_⟩ <;> decide

/-! ### C4 and C10: the retry loop -/

theorem retryLoop_attempts_pos (o : Nat → Except FetchErr (Resp α)) (a n : Nat) :
    1 ≤ (ApiInstance.retryLoop o a n).attempts := by
  cases n with
  | zero =>
    unfold ApiInstance.retryLoop
    cases ApiInstance.fetchAttempt (o a) <;> simp
  | succ m =>
    unfold ApiInstance.retryLoop
    cases ApiInstance.fetchAttempt (o a) with
    | ok r => simp
    | error e =>
      dsimp only
      split <;> simp

theorem retryLoop_attempts_le (o : Nat → Except FetchErr (Resp α)) (a n : Nat) :
    (ApiInstance.retryLoop o a n).attempts ≤ n + 1 := by
  induction n generalizing a with
  | zero =>
    unfold ApiInstance.retryLoop
    cases ApiInstance.fetchAttempt (o a) <;> simp
  | succ m ih =>
    unfold ApiInstance.retryLoop
    cases ApiInstance.fetchAttempt (o a) with
    | ok r => simp
    | error e =>
      dsimp only
      split
      · simp
      · have := ih (a + 1)
        simp only
        omega

theorem range_map_pow_cons (a m : Nat) :
    2 ^ a * 200 :: (List.range m).map (fun i => 2 ^ (a + 1 + i) * 200) =
      (List.range (m + 1)).map (fun i => 2 ^ (a + i) * 200) := by
  rw [List.range_succ_eq_map, List.map_cons, List.map_map]
  refine congrArg₂ List.cons ?_ ?_
  · rw [Nat.add_zero]
  · apply List.map_congr_left
    intro i hi
    show 2 ^ (a + 1 + i) * 200 = 2 ^ (a + (i + 1)) * 200
    have h2 : a + (i + 1) = a + 1 + i := by omega
    rw [h2]

theorem retryLoop_ok (o : Nat → Except FetchErr (Resp α)) (a n : Nat) (r : Resp α)
    (h : ApiInstance.fetchAttempt (o a) = .ok r) :
    ApiInstance.retryLoop o a n = ⟨.ok r, 1, []⟩ := by
  cases n <;> (unfold ApiInstance.retryLoop; rw [h])

theorem retryLoop_zero_err (o : Nat → Except FetchErr (Resp α)) (a : Nat)
    (e : FetchErr) (h : ApiInstance.fetchAttempt (o a) = .error e) :
    ApiInstance.retryLoop o a 0 = ⟨.error e, 1, []⟩ := by
  unfold ApiInstance.retryLoop
  rw [h]

theorem retryLoop_succ_abort (o : Nat → Except FetchErr (Resp α)) (a n : Nat)
    (h : ApiInstance.fetchAttempt (o a) = .error .abort) :
    ApiInstance.retryLoop o a (n + 1) = ⟨.error .abort, 1, []⟩ := by
  unfold ApiInstance.retryLoop
  rw [h]
  dsimp only
  rw [if_pos rfl]

theorem retryLoop_succ_err (o : Nat → Except FetchErr (Resp α)) (a n : Nat)
    (e : FetchErr) (h : ApiInstance.fetchAttempt (o a) = .error e)
    (hne : e ≠ .abort) :
    ApiInstance.retryLoop o a (n + 1) =
      ⟨(ApiInstance.retryLoop o (a + 1) n).result,
        (ApiInstance.retryLoop o (a + 1) n).attempts + 1,
        2 ^ a * 200 :: (ApiInstance.retryLoop o (a + 1) n).delays⟩ := by
  conv_lhs => rw [ApiInstance.retryLoop]
  rw [h]
  dsimp only
  rw [if_neg hne]

theorem retryLoop_spec (o : Nat → Except FetchErr (Resp α)) (n : Nat) : ∀ a : Nat,
    (∀ i, a ≤ i → i ≤ a + n → ApiInstance.fetchAttempt (o i) ≠ .error .abort) →
    ((ApiInstance.retryLoop o a n).delays =
      (List.range ((ApiInstance.retryLoop o a n).attempts - 1)).map
        (fun i => 2 ^ (a + i) * 200)) ∧
    (∀ j r, a ≤ j → j ≤ a + n →
      (∀ i, a ≤ i → i < j → isOkOutcome (ApiInstance.fetchAttempt (o i)) = false) →
      ApiInstance.fetchAttempt (o j) = .ok r →
      (ApiInstance.retryLoop o a n).result = .ok r ∧
        (ApiInstance.retryLoop o a n).attempts = j - a + 1) ∧
    ((∀ i, a ≤ i → i ≤ a + n →
        isOkOutcome (ApiInstance.fetchAttempt (o i)) = false) →
      (ApiInstance.retryLoop o a n).result = ApiInstance.fetchAttempt (o (a + n)) ∧
        (ApiInstance.retryLoop o a n).attempts = n + 1) := by
  induction n with
  | zero =>
    intro a habort
    cases hq : ApiInstance.fetchAttempt (o a) with
    | ok r =>
      rw [retryLoop_ok o a 0 r hq]
      refine ⟨by simp, ?_, ?_⟩
      · intro j r' hja hjan hprev hok
        have hj : j = a := by omega
        subst hj
        rw [hq] at hok
        injection hok with h
        subst h
        refine ⟨rfl, ?_⟩
        dsimp only
        omega
      · intro hall
        have h1 := hall a (le_refl a) (by omega)
        rw [hq] at h1
        simp [isOkOutcome] at h1
    | error e =>
      rw [retryLoop_zero_err o a e hq]
      refine ⟨by simp, ?_, ?_⟩
      · intro j r hja hjan hprev hok
        have hj : j = a := by omega
        subst hj
        rw [hq] at hok
        cases hok
      · intro hall
        constructor
        · show Except.error e = ApiInstance.fetchAttempt (o (a + 0))
          rw [Nat.add_zero, hq]
        · rfl
  | succ m ih =>
    intro a habort
    cases hq : ApiInstance.fetchAttempt (o a) with
    | ok r =>
      rw [retryLoop_ok o a (m + 1) r hq]
      refine ⟨by simp, ?_, ?_⟩
      · intro j r' hja hjan hprev hok
        by_cases hj : j = a
        · subst hj
          rw [hq] at hok
          injection hok with h
          subst h
          refine ⟨rfl, ?_⟩
          dsimp only
          omega
        · have h1 := hprev a (le_refl a) (by omega)
          rw [hq] at h1
          simp [isOkOutcome] at h1
      · intro hall
        have h1 := hall a (le_refl a) (by omega)
        rw [hq] at h1
        simp [isOkOutcome] at h1
    | error e =>
      have hne : e ≠ .abort := by
        intro he
        subst he
        exact habort a (le_refl a) (by omega) hq
      rw [retryLoop_succ_err o a m e hq hne]
      have habort' : ∀ i, a + 1 ≤ i → i ≤ a + 1 + m →
          ApiInstance.fetchAttempt (o i) ≠ .error .abort := by
        intro i h1 h2
        exact habort i (by omega) (by omega)
      obtain ⟨ihd, ihfirst, ihall⟩ := ih (a + 1) habort'
      have hpos := retryLoop_attempts_pos o (a + 1) m
      have hsub : (ApiInstance.retryLoop o (a + 1) m).attempts - 1 + 1 =
          (ApiInstance.retryLoop o (a + 1) m).attempts := by omega
      refine ⟨?_, ?_, ?_⟩
      · show 2 ^ a * 200 :: (ApiInstance.retryLoop o (a + 1) m).delays =
          (List.range ((ApiInstance.retryLoop o (a + 1) m).attempts + 1 - 1)).map
            (fun i => 2 ^ (a + i) * 200)
        rw [ihd, Nat.add_sub_cancel, range_map_pow_cons a _, hsub]
      · intro j r hja hjan hprev hok
        have hjne : j ≠ a := by
          intro hj
          subst hj
          rw [hq] at hok
          cases hok
        have h1 := ihfirst j r (by omega) (by omega)
          (fun i hi1 hi2 => hprev i (by omega) hi2) hok
        have h2 := h1.2
        refine ⟨h1.1, ?_⟩
        dsimp only
        omega
      · intro hall
        have h1 := ihall (fun i hi1 hi2 => hall i (by omega) (by omega))
        constructor
        · show (ApiInstance.retryLoop o (a + 1) m).result =
            ApiInstance.fetchAttempt (o (a + (m + 1)))
          rw [h1.1]
          have harg : a + 1 + m = a + (m + 1) := by omega
          rw [harg]
        · show (ApiInstance.retryLoop o (a + 1) m).attempts + 1 = m + 1 + 1
          rw [h1.2]

theorem retryLoop_abort (o : Nat → Except FetchErr (Resp α)) (n : Nat) : ∀ a j : Nat,
    a ≤ j → j ≤ a + n →
    ApiInstance.fetchAttempt (o j) = .error .abort →
    (∀ i, a ≤ i → i < j →
      isOkOutcome (ApiInstance.fetchAttempt (o i)) = false ∧
        ApiInstance.fetchAttempt (o i) ≠ .error .abort) →
    (ApiInstance.retryLoop o a n).result = .error .abort ∧
      (ApiInstance.retryLoop o a n).attempts = j - a + 1 ∧
      (ApiInstance.retryLoop o a n).delays =
        (List.range (j - a)).map (fun i => 2 ^ (a + i) * 200) := by
  induction n with
  | zero =>
    intro a j hja hjan hab hprev
    have hj : j = a := by omega
    subst hj
    rw [retryLoop_zero_err o j .abort hab]
    refine ⟨rfl, ?_, ?_⟩ <;> (dsimp only; simp [Nat.sub_self])
  | succ m ih =>
    intro a j hja hjan hab hprev
    by_cases hj : j = a
    · subst hj
      rw [retryLoop_succ_abort o j m hab]
      refine ⟨rfl, ?_, ?_⟩ <;> (dsimp only; simp [Nat.sub_self])
    · have hja1 : a + 1 ≤ j := by omega
      obtain ⟨hnok, hnab⟩ := hprev a (le_refl a) (by omega)
      cases hq : ApiInstance.fetchAttempt (o a) with
      | ok r =>
        rw [hq] at hnok
        simp [isOkOutcome] at hnok
      | error e =>
        have hne : e ≠ .abort := by
          intro he
          subst he
          exact hnab hq
        rw [retryLoop_succ_err o a m e hq hne]
        have h1 := ih (a + 1) j hja1 (by omega) hab
          (fun i hi1 hi2 => hprev i (by omega) hi2)
        refine ⟨h1.1, ?_, ?_⟩
        · dsimp only
          have h2 := h1.2.1
          omega
        · show 2 ^ a * 200 :: (ApiInstance.retryLoop o (a + 1) m).delays =
            (List.range (j - a)).map (fun i => 2 ^ (a + i) * 200)
          rw [h1.2.2, range_map_pow_cons a (j - (a + 1))]
          have h3 : j - (a + 1) + 1 = j - a := by omega
          rw [h3]

/-- C4: for every retry budget `r`, over attempt outcomes none of which
is an `AbortError` (a cancelled request is the subject of the separate
abort property), `fetchWithRetry` makes at most `r + 1` fetch attempts;
after every failed attempt except the last it sleeps exactly
`2 ^ attempt * 200` ms (200, 400, 800, ... — one delay per attempt that
failed with budget remaining); the first successful response is
returned; and when all `r + 1` attempts fail, the error of the last
attempt is rethrown. -/
theorem fetchWithRetry_backoff_spec (α : Type)
    (outcomes : Nat → Except FetchErr (Resp α)) (retry : Nat)
    (habort : ∀ i, i ≤ retry →
      ApiInstance.fetchAttempt (outcomes i) ≠ .error .abort) :
    (ApiInstance.fetchWithRetry outcomes retry).attempts ≤ retry + 1 ∧
    (ApiInstance.fetchWithRetry outcomes retry).delays =
      (List.range ((ApiInstance.fetchWithRetry outcomes retry).attempts - 1)).map
        (fun i => 2 ^ i * 200) ∧
    (∀ j r, j ≤ retry →
      (∀ i, i < j → isOkOutcome (ApiInstance.fetchAttempt (outcomes i)) = false) →
      ApiInstance.fetchAttempt (outcomes j) = .ok r →
      (ApiInstance.fetchWithRetry outcomes retry).result = .ok r ∧
        (ApiInstance.fetchWithRetry outcomes retry).attempts = j + 1) ∧
    ((∀ i, i ≤ retry →
        isOkOutcome (ApiInstance.fetchAttempt (outcomes i)) = false) →
      (ApiInstance.fetchWithRetry outcomes retry).result =
          ApiInstance.fetchAttempt (outcomes retry) ∧
        (ApiInstance.fetchWithRetry outcomes retry).attempts = retry + 1) := by
  have habort' : ∀ i, 0 ≤ i → i ≤ 0 + retry →
      ApiInstance.fetchAttempt (outcomes i) ≠ .error .abort := by
    intro i h1 h2
    exact habort i (by omega)
  obtain ⟨hd, hfirst, hall⟩ := retryLoop_spec outcomes retry 0 habort'
  have hmap : ∀ k : Nat, (List.range k).map (fun i => 2 ^ (0 + i) * 200) =
      (List.range k).map (fun i => 2 ^ i * 200) := by
    intro k
    apply List.map_congr_left
    intro i hi
    rw [Nat.zero_add]
  unfold ApiInstance.fetchWithRetry
  refine ⟨retryLoop_attempts_le outcomes 0 retry, ?_, ?_, ?_⟩
  · rw [hd, hmap]
  · intro j r hj hprev hok
    have h1 := hfirst j r (by omega) (by omega) (fun i hi1 hi2 => hprev i hi2) hok
    refine ⟨h1.1, ?_⟩
    have h2 := h1.2
    omega
  · intro hfail
    have h1 := hall (fun i hi1 hi2 => hfail i (by omega))
    refine ⟨?_, h1.2⟩
    rw [h1.1, Nat.zero_add]

/-- C4 (witness): two network failures then a success under retry
budget 3: three attempts, delays 200 ms and 400 ms, and the first
successful response returned. -/
theorem fetchWithRetry_backoff_spec_witness :
    (∀ i, i ≤ 3 → ApiInstance.fetchAttempt
      ((fun i => if i < 2 then (Except.error (FetchErr.network "x") :
          Except FetchErr (Resp Nat))
        else Except.ok ⟨true, 200, 0⟩) i) ≠ .error .abort) ∧
    ((ApiInstance.fetchWithRetry
        (fun i => if i < 2 then (Except.error (FetchErr.network "x") :
            Except FetchErr (Resp Nat))
          else Except.ok ⟨true, 200, 0⟩) 3).attempts ≤ 3 + 1 ∧
      (ApiInstance.fetchWithRetry
        (fun i => if i < 2 then (Except.error (FetchErr.network "x") :
            Except FetchErr (Resp Nat))
          else Except.ok ⟨true, 200, 0⟩) 3).delays =
        (List.range ((ApiInstance.fetchWithRetry
          (fun i => if i < 2 then (Except.error (FetchErr.network "x") :
              Except FetchErr (Resp Nat))
            else Except.ok ⟨true, 200, 0⟩) 3).attempts - 1)).map
          (fun i => 2 ^ i * 200) ∧
      (∀ j r, j ≤ 3 →
        (∀ i, i < j → isOkOutcome (ApiInstance.fetchAttempt
          ((fun i => if i < 2 then (Except.error (FetchErr.network "x") :
              Except FetchErr (Resp Nat))
            else Except.ok ⟨true, 200, 0⟩) i)) = false) →
        ApiInstance.fetchAttempt
          ((fun i => if i < 2 then (Except.error (FetchErr.network "x") :
              Except FetchErr (Resp Nat))
            else Except.ok ⟨true, 200, 0⟩) j) = .ok r →
        (ApiInstance.fetchWithRetry
          (fun i => if i < 2 then (Except.error (FetchErr.network "x") :
              Except FetchErr (Resp Nat))
            else Except.ok ⟨true, 200, 0⟩) 3).result = .ok r ∧
          (ApiInstance.fetchWithRetry
            (fun i => if i < 2 then (Except.error (FetchErr.network "x") :
                Except FetchErr (Resp Nat))
              else Except.ok ⟨true, 200, 0⟩) 3).attempts = j + 1) ∧
      ((∀ i, i ≤ 3 → isOkOutcome (ApiInstance.fetchAttempt
          ((fun i => if i < 2 then (Except.error (FetchErr.network "x") :
              Except FetchErr (Resp Nat))
            else Except.ok ⟨true, 200, 0⟩) i)) = false) →
        (ApiInstance.fetchWithRetry
          (fun i => if i < 2 then (Except.error (FetchErr.network "x") :
              Except FetchErr (Resp Nat))
            else Except.ok ⟨true, 200, 0⟩) 3).result =
            ApiInstance.fetchAttempt
              ((fun i => if i < 2 then (Except.error (FetchErr.network "x") :
                  Except FetchErr (Resp Nat))
                else Except.ok ⟨true, 200, 0⟩) 3) ∧
          (ApiInstance.fetchWithRetry
            (fun i => if i < 2 then (Except.error (FetchErr.network "x") :
                Except FetchErr (Resp Nat))
              else Except.ok ⟨true, 200, 0⟩) 3).attempts = 3 + 1)) ∧
    ((ApiInstance.fetchWithRetry
        (fun i => if i < 2 then (Except.error (FetchErr.network "x") :
            Except FetchErr (Resp Nat))
          else Except.ok ⟨true, 200, 0⟩) 3).attempts = 3 ∧
      (ApiInstance.fetchWithRetry
        (fun i => if i < 2 then (Except.error (FetchErr.network "x") :
            Except FetchErr (Resp Nat))
          else Except.ok ⟨true, 200, 0⟩) 3).delays = [200, 400]) :=
  ⟨fun i hi => by interval_cases i <;> decide,
    fetchWithRetry_backoff_spec Nat
      (fun i => if i < 2 then (Except.error (FetchErr.network "x") :
          Except FetchErr (Resp Nat))
        else Except.ok ⟨true, 200, 0⟩) 3
      (fun i hi => by interval_cases i <;> decide),
    by decide, by decide⟩

/-- C10: whatever the attempt index and remaining budget, an attempt
failing with an `AbortError` is rethrown immediately: the loop stops at
that attempt, awaits no backoff delay after it (the delays are exactly
those of the earlier failed attempts), and makes no further attempts. -/
theorem fetchWithRetry_abort_immediate (α : Type)
    (outcomes : Nat → Except FetchErr (Resp α)) (retry j : Nat)
    (hj : j ≤ retry)
    (hab : ApiInstance.fetchAttempt (outcomes j) = .error .abort)
    (hprev : ∀ i, i < j →
      isOkOutcome (ApiInstance.fetchAttempt (outcomes i)) = false ∧
        ApiInstance.fetchAttempt (outcomes i) ≠ .error .abort) :
    (ApiInstance.fetchWithRetry outcomes retry).result = .error .abort ∧
      (ApiInstance.fetchWithRetry outcomes retry).attempts = j + 1 ∧
      (ApiInstance.fetchWithRetry outcomes retry).delays =
        (List.range j).map (fun i => 2 ^ i * 200) := by
  have h1 := retryLoop_abort outcomes retry 0 j (by omega) (by omega) hab
    (fun i hi1 hi2 => hprev i hi2)
  unfold ApiInstance.fetchWithRetry
  refine ⟨h1.1, ?_, ?_⟩
  · have h2 := h1.2.1
    omega
  · rw [h1.2.2, Nat.sub_zero]
    apply List.map_congr_left
    intro i hi
    rw [Nat.zero_add]

/-- C10 (witness): a network failure then an abort under retry budget 3:
the abort is rethrown after the second attempt with only the first
attempt's 200 ms delay. -/
theorem fetchWithRetry_abort_immediate_witness :
    (1 ≤ 3 ∧
      ApiInstance.fetchAttempt
        ((fun i => if i = 0 then (Except.error (FetchErr.network "down") :
            Except FetchErr (Resp Nat))
          else Except.error FetchErr.abort) 1) = .error .abort) ∧
    ((ApiInstance.fetchWithRetry
        (fun i => if i = 0 then (Except.error (FetchErr.network "down") :
            Except FetchErr (Resp Nat))
          else Except.error FetchErr.abort) 3).result = .error .abort ∧
      (ApiInstance.fetchWithRetry
        (fun i => if i = 0 then (Except.error (FetchErr.network "down") :
            Except FetchErr (Resp Nat))
          else Except.error FetchErr.abort) 3).attempts = 1 + 1 ∧
      (ApiInstance.fetchWithRetry
        (fun i => if i = 0 then (Except.error (FetchErr.network "down") :
            Except FetchErr (Resp Nat))
          else Except.error FetchErr.abort) 3).delays =
        (List.range 1).map (fun i => 2 ^ i * 200)) :=
  ⟨⟨by decide, rfl⟩,
    fetchWithRetry_abort_immediate Nat
      (fun i => if i = 0 then (Except.error (FetchErr.network "down") :
          Except FetchErr (Resp Nat))
        else Except.error FetchErr.abort) 3 1 (by decide) rfl
      (fun i hi => by
        interval_cases i
        exact ⟨rfl, by decide⟩)⟩

/-! ### C5: mutation deduplication -/

/-- C5: while a mutation with serialized key
`JSON.stringify({url, method, request})` is in flight (its key sits in
the module-level `pendingRequests` map), a second `mutate` call with the
same key returns the first caller's pending promise and issues no second
request; and once a `mutate` call completes (with success or error) its
key is no longer in `pendingRequests`. -/
theorem mutate_dedup (pending : List (String × Nat)) (url method : String)
    (reqJson : Option String) (f1 f2 : Nat)
    (hmiss : mapHas pending (mutateKey url method reqJson) = false) :
    (mutateStart pending (mutateKey url method reqJson) f1).issued = true ∧
    (mutateStart pending (mutateKey url method reqJson) f1).returned = f1 ∧
    mapGet (mutateStart pending (mutateKey url method reqJson) f1).pending
      (mutateKey url method reqJson) = some f1 ∧
    (mutateStart (mutateStart pending (mutateKey url method reqJson) f1).pending
      (mutateKey url method reqJson) f2).returned = f1 ∧
    (mutateStart (mutateStart pending (mutateKey url method reqJson) f1).pending
      (mutateKey url method reqJson) f2).issued = false ∧
    (∀ p' : List (String × Nat),
      mapHas (mutateFinish p' (mutateKey url method reqJson))
        (mutateKey url method reqJson) = false) := by
  set key := mutateKey url method reqJson with hkey
  have h1 : mutateStart pending key f1 = ⟨f1, mapSet pending key f1, true⟩ := by
    unfold mutateStart
    rw [hmiss]
    simp
  have h2 : mapHas (mapSet pending key f1) key = true := mapHas_mapSet_self _ _ _
  have h3 : mutateStart (mapSet pending key f1) key f2 =
      ⟨(mapGet (mapSet pending key f1) key).getD f2,
        mapDelete (mapSet pending key f1) key, false⟩ := by
    unfold mutateStart
    rw [h2]
    simp
  refine ⟨by rw [h1], by rw [h1], ?_, ?_, ?_, ?_⟩
  · rw [h1]
    exact mapGet_mapSet_self pending key f1
  · rw [h1]
    show (mutateStart (mapSet pending key f1) key f2).returned = f1
    rw [h3]
    show (mapGet (mapSet pending key f1) key).getD f2 = f1
    rw [mapGet_mapSet_self]
    rfl
  · rw [h1]
    show (mutateStart (mapSet pending key f1) key f2).issued = false
    rw [h3]
  · intro p'
    exact mapHas_mapDelete_self p' key

/-- C5 (witness): the dedup round-trip on an empty pending map with key
`JSON.stringify({url: "/u", method: "POST", request: 1})`. -/
theorem mutate_dedup_witness :
    (mapHas ([] : List (String × Nat)) (mutateKey "/u" "POST" (some "1")) = false) ∧
    ((mutateStart [] (mutateKey "/u" "POST" (some "1")) 10).issued = true ∧
      (mutateStart [] (mutateKey "/u" "POST" (some "1")) 10).returned = 10 ∧
      mapGet (mutateStart [] (mutateKey "/u" "POST" (some "1")) 10).pending
        (mutateKey "/u" "POST" (some "1")) = some 10 ∧
      (mutateStart (mutateStart [] (mutateKey "/u" "POST" (some "1")) 10).pending
        (mutateKey "/u" "POST" (some "1")) 11).returned = 10 ∧
      (mutateStart (mutateStart [] (mutateKey "/u" "POST" (some "1")) 10).pending
        (mutateKey "/u" "POST" (some "1")) 11).issued = false ∧
      ∀ p' : List (String × Nat),
        mapHas (mutateFinish p' (mutateKey "/u" "POST" (some "1")))
          (mutateKey "/u" "POST" (some "1")) = false) :=
  ⟨by decide, mutate_dedup [] "/u" "POST" (some "1") 10 11 (by decide)⟩

/-! ### C6: the cache key -/

/-- C6: the cache key depends only on the instance `source` and the
request's `url` and `params` — configs differing only in method,
headers, body, cache or retry collide — and equals the `source` prefix
joined to `JSON.stringify({url, params})`, except that a serialisation
longer than 200 UTF-16 units is replaced by its base-36 32-bit hash. -/
theorem buildcacheKey_spec (source : String) (c1 c2 : TApiConfig)
    (hurl : c1.url = c2.url) (hparams : c1.params = c2.params) :
    ApiInstance.buildcacheKey source c1 = ApiInstance.buildcacheKey source c2 ∧
    ApiInstance.buildcacheKey source c1 =
      (if 200 < (utf16Units (stringifyKeyObj c1.url c1.params)).length
       then source ++ ":" ++ ApiInstance.hash (stringifyKeyObj c1.url c1.params)
       else source ++ ":" ++ stringifyKeyObj c1.url c1.params) := by
  constructor
  · unfold ApiInstance.buildcacheKey
    rw [hurl, hparams]
  · rfl

/-- C6 (witness): a GET with no body and a POST with headers and body
but the same url and params share one cache key, of the plain
(unhashed) shape. -/
theorem buildcacheKey_spec_witness :
    ((⟨"/users", some .GET, none, some [("page", .prim (.num 2))], none, none,
        none⟩ : TApiConfig).url =
      (⟨"/users", some .POST, some [("X-Auth", "tok")],
        some [("page", .prim (.num 2))], some (.raw "body"), none,
        some 3⟩ : TApiConfig).url) ∧
    ((⟨"/users", some .GET, none, some [("page", .prim (.num 2))], none, none,
        none⟩ : TApiConfig).params =
      (⟨"/users", some .POST, some [("X-Auth", "tok")],
        some [("page", .prim (.num 2))], some (.raw "body"), none,
        some 3⟩ : TApiConfig).params) ∧
    (ApiInstance.buildcacheKey "komcards-default"
        ⟨"/users", some .GET, none, some [("page", .prim (.num 2))], none, none,
          none⟩ =
      ApiInstance.buildcacheKey "komcards-default"
        ⟨"/users", some .POST, some [("X-Auth", "tok")],
          some [("page", .prim (.num 2))], some (.raw "body"), none, some 3⟩ ∧
     ApiInstance.buildcacheKey "komcards-default"
        ⟨"/users", some .GET, none, some [("page", .prim (.num 2))], none, none,
          none⟩ =
      (if 200 < (utf16Units (stringifyKeyObj "/users"
          (some [("page", .prim (.num 2))]))).length
       then "komcards-default" ++ ":" ++
        ApiInstance.hash (stringifyKeyObj "/users" (some [("page", .prim (.num 2))]))
       else "komcards-default" ++ ":" ++
        stringifyKeyObj "/users" (some [("page", .prim (.num 2))]))) :=
  ⟨rfl, rfl,
    buildcacheKey_spec "komcards-default"
      ⟨"/users", some .GET, none, some [("page", .prim (.num 2))], none, none, none⟩
      ⟨"/users", some .POST, some [("X-Auth", "tok")],
        some [("page", .prim (.num 2))], some (.raw "body"), none, some 3⟩
      rfl rfl⟩

/-! ### C7: infinite fetch -/

theorem fetchNextPage_no_next (page : Type)
    (so : page → List page → Int → Option Int) (net : Except FetchErr page)
    (st : InfState page) (closureItems : List page)
    (h : st.hasNextPage = false) :
    fetchNextPage so net st closureItems = (st, false) := by
  unfold fetchNextPage
  rw [h]
  simp

/-- C7 (amended): a successful `fetchNextPage` appends exactly the new
page at the end, leaving the earlier pages unchanged (the `setItems`
functional updater accumulates correctly); the next offset is whatever
the caller's `setOffset` returns on the last page, the new page
appended to the stale `items` list the `fetchPage` closure captured —
the `useCallback` dependency array omits `items`, so while `url`,
`config` and `offsetKey` are unchanged this stays the mount value `[]`,
not the accumulated pages — and the offset just used; `none` turns
`hasNextPage` off and leaves the offset alone, `some n` keeps it on and
stores `n`; and once `hasNextPage` is false every further
`fetchNextPage` performs no fetch and leaves the state unchanged. -/
theorem useInfiniteFetch_spec (page : Type)
    (so : page → List page → Int → Option Int) (st : InfState page)
    (closureItems : List page) (p : page) (net : Except FetchErr page)
    (nets : List (Except FetchErr page)) :
    (st.hasNextPage = true → st.isFetchingNextPage = false →
      ((fetchNextPage so (.ok p) st closureItems).2 = true ∧
        (fetchNextPage so (.ok p) st closureItems).1.items = st.items ++ [p] ∧
        (so p (closureItems ++ [p]) st.offset = none →
          (fetchNextPage so (.ok p) st closureItems).1.hasNextPage = false ∧
            (fetchNextPage so (.ok p) st closureItems).1.offset = st.offset) ∧
        (∀ n, so p (closureItems ++ [p]) st.offset = some n →
          (fetchNextPage so (.ok p) st closureItems).1.hasNextPage = true ∧
            (fetchNextPage so (.ok p) st closureItems).1.offset = n))) ∧
    (st.hasNextPage = false →
      (fetchNextPage so net st closureItems).2 = false ∧
        fetchNextPages so nets st closureItems = st) := by
  constructor
  · intro hnext hnof
    have hcond : (!st.hasNextPage || st.isFetchingNextPage) = false := by
      rw [hnext, hnof]
      rfl
    have heq : fetchNextPage so (.ok p) st closureItems =
        (fetchPage so (.ok p) st closureItems st.offset true, true) := by
      unfold fetchNextPage
      rw [hcond]
      simp
    rw [heq]
    have hpage : fetchPage so (.ok p) st closureItems st.offset true =
        (match so p (closureItems ++ [p]) st.offset with
         | none =>
           { st with
             items := st.items ++ [p]
             error := none
             isFetchingNextPage := false
             hasNextPage := false }
         | some n =>
           { st with
             items := st.items ++ [p]
             error := none
             isFetchingNextPage := false
             hasNextPage := true
             offset := n }) := rfl
    refine ⟨rfl, ?_, ?_, ?_⟩
    · show (fetchPage so (.ok p) st closureItems st.offset true).items
        = st.items ++ [p]
      rw [hpage]
      cases so p (closureItems ++ [p]) st.offset <;> rfl
    · intro hnone
      show (fetchPage so (.ok p) st closureItems st.offset true).hasNextPage
          = false ∧
        (fetchPage so (.ok p) st closureItems st.offset true).offset = st.offset
      rw [hpage, hnone]
      exact ⟨rfl, rfl⟩
    · intro n hsome
      show (fetchPage so (.ok p) st closureItems st.offset true).hasNextPage
          = true ∧
        (fetchPage so (.ok p) st closureItems st.offset true).offset = n
      rw [hpage, hsome]
      exact ⟨rfl, rfl⟩
  · intro hfalse
    refine ⟨by rw [fetchNextPage_no_next page so net st closureItems hfalse], ?_⟩
    induction nets with
    | nil => rfl
    | cons n rest ih =>
      unfold fetchNextPages
      rw [List.foldl_cons, fetchNextPage_no_next page so n st closureItems hfalse]
      exact ih

/-- C7 (witness): from a two-page state whose closure holds the stale
one-page mount list, a successful fetch appends the page to the real
items and feeds `setOffset` the stale list plus the new page; from a
state with `hasNextPage` off, two further calls change nothing. -/
theorem useInfiniteFetch_spec_witness :
    ((⟨[[1], [2]], 2, true, false, none⟩ : InfState (List Nat)).hasNextPage
        = true ∧
      (⟨[[1], [2]], 2, true, false, none⟩ :
        InfState (List Nat)).isFetchingNextPage = false ∧
      (fun (_ : List Nat) (all : List (List Nat)) (off : Int) =>
          if 3 ≤ all.length then none else some (off + 1)) [3]
        ([[0]] ++ [[3]])
        (⟨[[1], [2]], 2, true, false, none⟩ : InfState (List Nat)).offset
        = some 3) ∧
    ((fetchNextPage
        (fun _ all off => if 3 ≤ all.length then none else some (off + 1))
        (.ok [3]) ⟨[[1], [2]], 2, true, false, none⟩ [[0]]).2 = true ∧
      (fetchNextPage
        (fun _ all off => if 3 ≤ all.length then none else some (off + 1))
        (.ok [3]) ⟨[[1], [2]], 2, true, false, none⟩ [[0]]).1.items
        = [[1], [2], [3]] ∧
      (fetchNextPage
        (fun _ all off => if 3 ≤ all.length then none else some (off + 1))
        (.ok [3]) ⟨[[1], [2]], 2, true, false, none⟩ [[0]]).1.hasNextPage
        = true ∧
      (fetchNextPage
        (fun _ all off => if 3 ≤ all.length then none else some (off + 1))
        (.ok [3]) ⟨[[1], [2]], 2, true, false, none⟩ [[0]]).1.offset = 3) ∧
    ((⟨[[1]], 1, false, false, none⟩ : InfState (List Nat)).hasNextPage
        = false ∧
      fetchNextPages
        (fun _ all off => if 3 ≤ all.length then none else some (off + 1))
        [.ok [9], .error .abort] ⟨[[1]], 1, false, false, none⟩ [[0]]
        = ⟨[[1]], 1, false, false, none⟩) := by
  have h1 := (useInfiniteFetch_spec (List Nat)
    (fun _ all off => if 3 ≤ all.length then none else some (off + 1))
    ⟨[[1], [2]], 2, true, false, none⟩ [[0]] [3] (.ok [3])
    [.ok [9], .error .abort]).1 rfl rfl
  have h2 := (useInfiniteFetch_spec (List Nat)
    (fun _ all off => if 3 ≤ all.length then none else some (off + 1))
    ⟨[[1]], 1, false, false, none⟩ [[0]] [9] (.ok [9])
    [.ok [9], .error .abort]).2 rfl
  have h3 := (h1.2.2.2 3) (by decide)
  exact ⟨⟨rfl, rfl, by decide⟩, ⟨h1.1, h1.2.1, h3.1, h3.2⟩, rfl, h2.2⟩

/-- C7 (counterexample): the original claim says `setOffset` receives
all accumulated pages.  Run the hook model from mount with
`setOffset := fun _ all off => if 2 ≤ all.length then none else
some (off + 1)` — stop once two pages are accumulated.  The mount fetch
yields one page.  On the next `fetchNextPage`, all accumulated pages
are `[[1], [2]]`, so per the claim `setOffset` returns `none` and
`hasNextPage` must become false; but line 1074 passes the stale closure
`items` (the mount value `[]`, since the dependency array on line 1092
omits `items`) plus the new page, i.e. just `[[2]]`, so the program
keeps `hasNextPage` on and advances the offset. -/
theorem useInfiniteFetch_spec_counterexample :
    fetchPage
        (fun _ all off => if 2 ≤ all.length then none else some (off + 1))
        (.ok [1]) (infInit (List Nat) 0) [] 0 false
      = ⟨[[1]], 1, true, false, none⟩ ∧
    (fun (_ : List Nat) (all : List (List Nat)) (off : Int) =>
        if 2 ≤ all.length then none else some (off + 1)) [2]
      ((⟨[[1]], 1, true, false, none⟩ : InfState (List Nat)).items ++ [[2]])
      (⟨[[1]], 1, true, false, none⟩ : InfState (List Nat)).offset = none ∧
    (fetchNextPage
        (fun _ all off => if 2 ≤ all.length then none else some (off + 1))
        (.ok [2]) ⟨[[1]], 1, true, false, none⟩ []).1.hasNextPage = true ∧
    (fetchNextPage
        (fun _ all off => if 2 ≤ all.length then none else some (off + 1))
        (.ok [2]) ⟨[[1]], 1, true, false, none⟩ []).1.offset = 2 ∧
    (fetchNextPage
        (fun _ all off => if 2 ≤ all.length then none else some (off + 1))
        (.ok [2]) ⟨[[1]], 1, true, false, none⟩ []).1.items = [[1], [2]] := by
  refine ⟨?_, ?_, ?_, ?_, ?_⟩ <;> decide

/-! ### Equations for the request pipeline -/

theorem requestNet_keyUsed (ints : IApiInterceptor α) (baseURL : String)
    (defaultHeaders : List (String × String)) (st : ApiState α)
    (finalConfig : TApiConfig) (cacheKey : String) (now : Nat)
    (net : String → Nat → Except FetchErr (Resp α)) :
    (ApiInstance.requestNet ints baseURL defaultHeaders st finalConfig cacheKey
      now net).keyUsed = some cacheKey := by
  unfold ApiInstance.requestNet
  dsimp only
  split
  · rfl
  · split
    · rfl
    · split
      · split <;> rfl
      · rfl

theorem requestNet_didFetch (ints : IApiInterceptor α) (baseURL : String)
    (defaultHeaders : List (String × String)) (st : ApiState α)
    (finalConfig : TApiConfig) (cacheKey : String) (now : Nat)
    (net : String → Nat → Except FetchErr (Resp α)) :
    (ApiInstance.requestNet ints baseURL defaultHeaders st finalConfig cacheKey
      now net).didFetch = true := by
  unfold ApiInstance.requestNet
  dsimp only
  split
  · rfl
  · split
    · rfl
    · split
      · split <;> rfl
      · rfl

theorem requestNet_fetchedURL (ints : IApiInterceptor α) (baseURL : String)
    (defaultHeaders : List (String × String)) (st : ApiState α)
    (finalConfig : TApiConfig) (cacheKey : String) (now : Nat)
    (net : String → Nat → Except FetchErr (Resp α)) :
    (ApiInstance.requestNet ints baseURL defaultHeaders st finalConfig cacheKey
      now net).fetchedURL =
      some (buildURL (baseURL ++ finalConfig.url) finalConfig.params) := by
  unfold ApiInstance.requestNet
  dsimp only
  split
  · rfl
  · split
    · rfl
    · split
      · split <;> rfl
      · rfl

theorem requestNet_fetchedInit (ints : IApiInterceptor α) (baseURL : String)
    (defaultHeaders : List (String × String)) (st : ApiState α)
    (finalConfig : TApiConfig) (cacheKey : String) (now : Nat)
    (net : String → Nat → Except FetchErr (Resp α)) :
    (ApiInstance.requestNet ints baseURL defaultHeaders st finalConfig cacheKey
      now net).fetchedInit = some (ApiInstance.mkInit defaultHeaders finalConfig) := by
  unfold ApiInstance.requestNet
  dsimp only
  split
  · rfl
  · split
    · rfl
    · split
      · split <;> rfl
      · rfl

theorem requestNet_eq_fetchErr (ints : IApiInterceptor α) (baseURL : String)
    (defaultHeaders : List (String × String)) (st : ApiState α)
    (finalConfig : TApiConfig) (cacheKey : String) (now : Nat)
    (net : String → Nat → Except FetchErr (Resp α)) (e : FetchErr)
    (hrun : (ApiInstance.fetchWithRetry
      (net (buildURL (baseURL ++ finalConfig.url) finalConfig.params))
      (finalConfig.retry.getD 0)).result = .error e) :
    (ApiInstance.requestNet ints baseURL defaultHeaders st finalConfig cacheKey
      now net).result = .error e ∧
    (ApiInstance.requestNet ints baseURL defaultHeaders st finalConfig cacheKey
      now net).state = st := by
  unfold ApiInstance.requestNet
  dsimp only
  rw [hrun]
  exact ⟨rfl, rfl⟩

theorem requestNet_eq_respInt (ints : IApiInterceptor α) (baseURL : String)
    (defaultHeaders : List (String × String)) (st : ApiState α)
    (finalConfig : TApiConfig) (cacheKey : String) (now : Nat)
    (net : String → Nat → Except FetchErr (Resp α)) (raw : Resp α)
    (hrun : (ApiInstance.fetchWithRetry
      (net (buildURL (baseURL ++ finalConfig.url) finalConfig.params))
      (finalConfig.retry.getD 0)).result = .ok raw) :
    (∀ e, ApiInstance.handleResponse ints raw = .error e →
      (ApiInstance.requestNet ints baseURL defaultHeaders st finalConfig cacheKey
        now net).result = .error e ∧
      (ApiInstance.requestNet ints baseURL defaultHeaders st finalConfig cacheKey
        now net).state = st) ∧
    (∀ fresp, ApiInstance.handleResponse ints raw = .ok fresp →
      (fresp.ok = false →
        (ApiInstance.requestNet ints baseURL defaultHeaders st finalConfig cacheKey
          now net).result = .error (.http fresp.status) ∧
        (ApiInstance.requestNet ints baseURL defaultHeaders st finalConfig cacheKey
          now net).state = st) ∧
      (fresp.ok = true →
        (ApiInstance.requestNet ints baseURL defaultHeaders st finalConfig cacheKey
          now net).result = .ok ⟨fresp.data, some cacheKey, false⟩ ∧
        (ApiInstance.cacheGuard finalConfig = true →
          (ApiInstance.requestNet ints baseURL defaultHeaders st finalConfig cacheKey
            now net).state = ApiInstance.setCacheEntry st cacheKey
              ⟨fresp.data, now, finalConfig.cache.bind (·.revalidate)⟩) ∧
        (ApiInstance.cacheGuard finalConfig = false →
          (ApiInstance.requestNet ints baseURL defaultHeaders st finalConfig cacheKey
            now net).state = st))) := by
  constructor
  · intro e hresp
    unfold ApiInstance.requestNet
    dsimp only
    rw [hrun]
    dsimp only
    rw [hresp]
    exact ⟨rfl, rfl⟩
  · intro fresp hresp
    constructor
    · intro hnok
      unfold ApiInstance.requestNet
      try dsimp only
      rw [hrun]
      try dsimp only
      rw [hresp]
      try dsimp only
      rw [hnok]
      try dsimp only
      exact ⟨rfl, rfl⟩
    · intro hok
      unfold ApiInstance.requestNet
      try dsimp only
      rw [hrun]
      try dsimp only
      rw [hresp]
      try dsimp only
      rw [hok, if_pos rfl]
      refine ⟨?_, ?_, ?_⟩
      · split <;> rfl
      · intro hguard
        rw [hguard, if_pos rfl]
      · intro hguard
        rw [hguard, if_neg (by simp)]

theorem requestTry_eq_intErr (ints : IApiInterceptor α) (baseURL source : String)
    (defaultHeaders : List (String × String)) (st : ApiState α)
    (config : TApiConfig) (now : Nat)
    (net : String → Nat → Except FetchErr (Resp α)) (e : FetchErr)
    (hI : ApiInstance.handleInterceptors ints config = .error e) :
    ApiInstance.requestTry ints baseURL source defaultHeaders st config now net =
      ⟨.error e, st, false, none, none, none⟩ := by
  unfold ApiInstance.requestTry
  rw [hI]

theorem requestTry_eq_noguard (ints : IApiInterceptor α) (baseURL source : String)
    (defaultHeaders : List (String × String)) (st : ApiState α)
    (config finalConfig : TApiConfig) (now : Nat)
    (net : String → Nat → Except FetchErr (Resp α))
    (hI : ApiInstance.handleInterceptors ints config = .ok finalConfig)
    (hguard : ApiInstance.cacheGuard finalConfig = false) :
    ApiInstance.requestTry ints baseURL source defaultHeaders st config now net =
      ApiInstance.requestNet ints baseURL defaultHeaders st finalConfig
        (ApiInstance.buildcacheKey source finalConfig) now net := by
  unfold ApiInstance.requestTry
  rw [hI]
  dsimp only
  rw [hguard]
  simp

theorem requestTry_eq_miss (ints : IApiInterceptor α) (baseURL source : String)
    (defaultHeaders : List (String × String)) (st : ApiState α)
    (config finalConfig : TApiConfig) (now : Nat)
    (net : String → Nat → Except FetchErr (Resp α))
    (hI : ApiInstance.handleInterceptors ints config = .ok finalConfig)
    (hguard : ApiInstance.cacheGuard finalConfig = true)
    (hq : mapGet st.cache (ApiInstance.buildcacheKey source finalConfig) = none) :
    ApiInstance.requestTry ints baseURL source defaultHeaders st config now net =
      ApiInstance.requestNet ints baseURL defaultHeaders st finalConfig
        (ApiInstance.buildcacheKey source finalConfig) now net := by
  unfold ApiInstance.requestTry
  rw [hI]
  dsimp only
  rw [hguard]
  simp only [if_pos rfl]
  rw [getCacheEntry_eq_miss st _ hq]
  rfl

theorem requestTry_eq_hit_fresh (ints : IApiInterceptor α) (baseURL source : String)
    (defaultHeaders : List (String × String)) (st : ApiState α)
    (config finalConfig : TApiConfig) (now : Nat)
    (net : String → Nat → Except FetchErr (Resp α)) (entry : TCacheEntry α)
    (hI : ApiInstance.handleInterceptors ints config = .ok finalConfig)
    (hguard : ApiInstance.cacheGuard finalConfig = true)
    (hq : mapGet st.cache (ApiInstance.buildcacheKey source finalConfig)
      = some entry)
    (hexp : ApiInstance.expired entry now = false) :
    ApiInstance.requestTry ints baseURL source defaultHeaders st config now net =
      ⟨.ok ⟨entry.data, some (ApiInstance.buildcacheKey source finalConfig), true⟩,
        { st with cacheAccessOrder :=
            st.cacheAccessOrder.erase (ApiInstance.buildcacheKey source finalConfig)
              ++ [ApiInstance.buildcacheKey source finalConfig] },
        false, none, none,
        some (ApiInstance.buildcacheKey source finalConfig)⟩ := by
  unfold ApiInstance.requestTry
  rw [hI]
  dsimp only
  rw [hguard]
  simp only [if_pos rfl]
  rw [getCacheEntry_eq_hit st _ entry hq]
  dsimp only
  rw [hexp]
  rfl

theorem requestTry_eq_hit_stale (ints : IApiInterceptor α) (baseURL source : String)
    (defaultHeaders : List (String × String)) (st : ApiState α)
    (config finalConfig : TApiConfig) (now : Nat)
    (net : String → Nat → Except FetchErr (Resp α)) (entry : TCacheEntry α)
    (hI : ApiInstance.handleInterceptors ints config = .ok finalConfig)
    (hguard : ApiInstance.cacheGuard finalConfig = true)
    (hq : mapGet st.cache (ApiInstance.buildcacheKey source finalConfig)
      = some entry)
    (hexp : ApiInstance.expired entry now = true) :
    ApiInstance.requestTry ints baseURL source defaultHeaders st config now net =
      ApiInstance.requestNet ints baseURL defaultHeaders
        (ApiInstance.removeCacheEntry
          { st with cacheAccessOrder :=
              st.cacheAccessOrder.erase (ApiInstance.buildcacheKey source finalConfig)
                ++ [ApiInstance.buildcacheKey source finalConfig] }
          (ApiInstance.buildcacheKey source finalConfig))
        finalConfig (ApiInstance.buildcacheKey source finalConfig) now net := by
  unfold ApiInstance.requestTry
  rw [hI]
  dsimp only
  rw [hguard]
  simp only [if_pos rfl]
  rw [getCacheEntry_eq_hit st _ entry hq]
  dsimp only
  rw [hexp]
  rfl

theorem request_eq_of_try_ok (ints : IApiInterceptor α) (baseURL source : String)
    (defaultHeaders : List (String × String)) (st : ApiState α)
    (config : TApiConfig) (now : Nat)
    (net : String → Nat → Except FetchErr (Resp α)) (v : TApiResponse α)
    (h : (ApiInstance.requestTry ints baseURL source defaultHeaders st config
      now net).result = .ok v) :
    ApiInstance.request ints baseURL source defaultHeaders st config now net =
      ApiInstance.requestTry ints baseURL source defaultHeaders st config now net := by
  unfold ApiInstance.request
  dsimp only
  rw [h]

theorem request_eq_of_try_err (ints : IApiInterceptor α) (baseURL source : String)
    (defaultHeaders : List (String × String)) (st : ApiState α)
    (config : TApiConfig) (now : Nat)
    (net : String → Nat → Except FetchErr (Resp α)) (e : FetchErr)
    (h : (ApiInstance.requestTry ints baseURL source defaultHeaders st config
      now net).result = .error e) :
    ApiInstance.request ints baseURL source defaultHeaders st config now net =
      { ApiInstance.requestTry ints baseURL source defaultHeaders st config now net
        with result := ApiInstance.handleError ints e } := by
  unfold ApiInstance.request
  dsimp only
  rw [h]

theorem request_didFetch_eq (ints : IApiInterceptor α) (baseURL source : String)
    (defaultHeaders : List (String × String)) (st : ApiState α)
    (config : TApiConfig) (now : Nat)
    (net : String → Nat → Except FetchErr (Resp α)) :
    (ApiInstance.request ints baseURL source defaultHeaders st config now
      net).didFetch =
      (ApiInstance.requestTry ints baseURL source defaultHeaders st config now
        net).didFetch := by
  unfold ApiInstance.request
  dsimp only
  split <;> rfl

/-! ### C1: the cache branch of `request` -/

/-- C1 (amended): for every GET request with `cache.enabled` (judged on
the config the request interceptor returns), `request` first looks up
the cache under the request's key.  A present entry that is un-expired —
it has no ttl, its ttl is `0` (falsy in `cached.ttl && ...`, so a ttl of
zero never expires), or `now − timestamp ≤ ttl` — is served as the
response with `fromCache = true` and no network fetch.  A present
expired entry is removed from the cache and the request proceeds to the
network.  On a successful network response the data is stored back under
the key with `ttl = cache.revalidate`. -/
theorem request_cache_spec (α : Type) (ints : IApiInterceptor α)
    (baseURL source : String) (defaultHeaders : List (String × String))
    (st : ApiState α) (config finalConfig : TApiConfig) (now : Nat)
    (net : String → Nat → Except FetchErr (Resp α))
    (hI : ApiInstance.handleInterceptors ints config = .ok finalConfig)
    (hguard : ApiInstance.cacheGuard finalConfig = true) :
    (∀ entry : TCacheEntry α,
      mapGet st.cache (ApiInstance.buildcacheKey source finalConfig) = some entry →
      ApiInstance.expired entry now = false →
      (ApiInstance.request ints baseURL source defaultHeaders st config now
        net).result =
          .ok ⟨entry.data, some (ApiInstance.buildcacheKey source finalConfig),
            true⟩ ∧
      (ApiInstance.request ints baseURL source defaultHeaders st config now
        net).didFetch = false ∧
      (ApiInstance.request ints baseURL source defaultHeaders st config now
        net).state = { st with cacheAccessOrder :=
          st.cacheAccessOrder.erase (ApiInstance.buildcacheKey source finalConfig)
            ++ [ApiInstance.buildcacheKey source finalConfig] }) ∧
    (∀ entry : TCacheEntry α,
      mapGet st.cache (ApiInstance.buildcacheKey source finalConfig) = some entry →
      ApiInstance.expired entry now = true →
      (ApiInstance.request ints baseURL source defaultHeaders st config now
        net).didFetch = true ∧
      mapHas (ApiInstance.removeCacheEntry
        { st with cacheAccessOrder :=
            st.cacheAccessOrder.erase (ApiInstance.buildcacheKey source finalConfig)
              ++ [ApiInstance.buildcacheKey source finalConfig] }
        (ApiInstance.buildcacheKey source finalConfig)).cache
        (ApiInstance.buildcacheKey source finalConfig) = false ∧
      (ApiInstance.request ints baseURL source defaultHeaders st config now
        net).state =
        (ApiInstance.requestNet ints baseURL defaultHeaders
          (ApiInstance.removeCacheEntry
            { st with cacheAccessOrder :=
                st.cacheAccessOrder.erase (ApiInstance.buildcacheKey source finalConfig)
                  ++ [ApiInstance.buildcacheKey source finalConfig] }
            (ApiInstance.buildcacheKey source finalConfig))
          finalConfig (ApiInstance.buildcacheKey source finalConfig) now
          net).state) ∧
    (mapGet st.cache (ApiInstance.buildcacheKey source finalConfig) = none →
      ∀ (raw fresp : Resp α),
        (ApiInstance.fetchWithRetry
          (net (buildURL (baseURL ++ finalConfig.url) finalConfig.params))
          (finalConfig.retry.getD 0)).result = .ok raw →
        ApiInstance.handleResponse ints raw = .ok fresp →
        fresp.ok = true →
        (ApiInstance.request ints baseURL source defaultHeaders st config now
          net).result =
            .ok ⟨fresp.data, some (ApiInstance.buildcacheKey source finalConfig),
              false⟩ ∧
        (ApiInstance.request ints baseURL source defaultHeaders st config now
          net).didFetch = true ∧
        (ApiInstance.request ints baseURL source defaultHeaders st config now
          net).state = ApiInstance.setCacheEntry st
            (ApiInstance.buildcacheKey source finalConfig)
            ⟨fresp.data, now, finalConfig.cache.bind (·.revalidate)⟩) := by
  refine ⟨?_, ?_, ?_⟩
  · intro entry hq hexp
    have heq := requestTry_eq_hit_fresh ints baseURL source defaultHeaders st
      config finalConfig now net entry hI hguard hq hexp
    have hreq := request_eq_of_try_ok ints baseURL source defaultHeaders st
      config now net _ (by rw [heq])
    rw [hreq, heq]
    exact ⟨rfl, rfl, rfl⟩
  · intro entry hq hexp
    have heq := requestTry_eq_hit_stale ints baseURL source defaultHeaders st
      config finalConfig now net entry hI hguard hq hexp
    refine ⟨?_, ?_, ?_⟩
    · rw [request_didFetch_eq, heq, requestNet_didFetch]
    · exact mapHas_mapDelete_self _ _
    · rw [request_state_eq, heq]
  · intro hq raw fresp hrun hresp hok
    have heq := requestTry_eq_miss ints baseURL source defaultHeaders st
      config finalConfig now net hI hguard hq
    have hnet := (requestNet_eq_respInt ints baseURL defaultHeaders st
      finalConfig (ApiInstance.buildcacheKey source finalConfig) now net raw
      hrun).2 fresp hresp
    have hres := (hnet.2 hok).1
    have hst := (hnet.2 hok).2.1 hguard
    have hreq := request_eq_of_try_ok ints baseURL source defaultHeaders st
      config now net _ (by rw [heq]; exact hres)
    refine ⟨?_, ?_, ?_⟩
    · rw [hreq, heq]
      exact hres
    · rw [request_didFetch_eq, heq, requestNet_didFetch]
    · rw [request_state_eq, heq]
      exact hst

/-- C1 (witness): a cached entry with ttl 10000 at timestamp 0 read at
`now = 5` is served from the cache with no fetch. -/
theorem request_cache_spec_witness :
    (ApiInstance.handleInterceptors (noInterceptors Nat)
        ⟨"/u", some .GET, none, none, none, some ⟨true, some 10000⟩, none⟩ =
      .ok ⟨"/u", some .GET, none, none, none, some ⟨true, some 10000⟩, none⟩ ∧
     ApiInstance.cacheGuard
        (⟨"/u", some .GET, none, none, none, some ⟨true, some 10000⟩, none⟩ :
          TApiConfig) = true ∧
     mapGet (ApiInstance.setCache (initState Nat 100)
        (ApiInstance.buildcacheKey "s"
          ⟨"/u", some .GET, none, none, none, some ⟨true, some 10000⟩, none⟩)
        42 0 (some 10000)).cache
       (ApiInstance.buildcacheKey "s"
          ⟨"/u", some .GET, none, none, none, some ⟨true, some 10000⟩, none⟩) =
        some ⟨42, 0, some 10000⟩ ∧
     ApiInstance.expired (⟨42, 0, some 10000⟩ : TCacheEntry Nat) 5 = false) ∧
    ((ApiInstance.request (noInterceptors Nat) "" "s" []
        (ApiInstance.setCache (initState Nat 100)
          (ApiInstance.buildcacheKey "s"
            ⟨"/u", some .GET, none, none, none, some ⟨true, some 10000⟩, none⟩)
          42 0 (some 10000))
        ⟨"/u", some .GET, none, none, none, some ⟨true, some 10000⟩, none⟩ 5
        (fun _ _ => Except.error (FetchErr.network "x"))).result =
      .ok ⟨42, some (ApiInstance.buildcacheKey "s"
        ⟨"/u", some .GET, none, none, none, some ⟨true, some 10000⟩, none⟩),
        true⟩ ∧
     (ApiInstance.request (noInterceptors Nat) "" "s" []
        (ApiInstance.setCache (initState Nat 100)
          (ApiInstance.buildcacheKey "s"
            ⟨"/u", some .GET, none, none, none, some ⟨true, some 10000⟩, none⟩)
          42 0 (some 10000))
        ⟨"/u", some .GET, none, none, none, some ⟨true, some 10000⟩, none⟩ 5
        (fun _ _ => Except.error (FetchErr.network "x"))).didFetch = false) := by
  have h := (request_cache_spec Nat (noInterceptors Nat) "" "s" []
    (ApiInstance.setCache (initState Nat 100)
      (ApiInstance.buildcacheKey "s"
        ⟨"/u", some .GET, none, none, none, some ⟨true, some 10000⟩, none⟩)
      42 0 (some 10000))
    ⟨"/u", some .GET, none, none, none, some ⟨true, some 10000⟩, none⟩
    ⟨"/u", some .GET, none, none, none, some ⟨true, some 10000⟩, none⟩ 5
    (fun _ _ => Except.error (FetchErr.network "x")) rfl rfl).1
    ⟨42, 0, some 10000⟩ (by decide) rfl
  exact ⟨⟨rfl, rfl, by decide, rfl⟩, h.1, h.2.1⟩

/-- C1 (counterexample): a cached entry whose ttl is `0`.  Per the
claim it has a ttl and `now − timestamp = 5 > 0 = ttl`, so it is
expired: the entry should be removed and the request should proceed to
the network.  The code's `cached.ttl && ...` is falsy for a zero ttl,
so the entry is served from the cache, no fetch happens, and the entry
stays in the cache. -/
theorem request_cache_spec_counterexample :
    ((⟨42, 0, some 0⟩ : TCacheEntry Nat).ttl = some 0 ∧
      0 < 5 - (⟨42, 0, some 0⟩ : TCacheEntry Nat).timestamp) ∧
    mapGet (ApiInstance.setCache (initState Nat 100)
        (ApiInstance.buildcacheKey "s"
          ⟨"/u", some .GET, none, none, none, some ⟨true, some 0⟩, none⟩)
        42 0 (some 0)).cache
      (ApiInstance.buildcacheKey "s"
        ⟨"/u", some .GET, none, none, none, some ⟨true, some 0⟩, none⟩) =
      some ⟨42, 0, some 0⟩ ∧
    (ApiInstance.request (noInterceptors Nat) "" "s" []
        (ApiInstance.setCache (initState Nat 100)
          (ApiInstance.buildcacheKey "s"
            ⟨"/u", some .GET, none, none, none, some ⟨true, some 0⟩, none⟩)
          42 0 (some 0))
        ⟨"/u", some .GET, none, none, none, some ⟨true, some 0⟩, none⟩ 5
        (fun _ _ => Except.error (FetchErr.network "x"))).didFetch = false ∧
    (ApiInstance.request (noInterceptors Nat) "" "s" []
        (ApiInstance.setCache (initState Nat 100)
          (ApiInstance.buildcacheKey "s"
            ⟨"/u", some .GET, none, none, none, some ⟨true, some 0⟩, none⟩)
          42 0 (some 0))
        ⟨"/u", some .GET, none, none, none, some ⟨true, some 0⟩, none⟩ 5
        (fun _ _ => Except.error (FetchErr.network "x"))).result =
      .ok ⟨42, some (ApiInstance.buildcacheKey "s"
        ⟨"/u", some .GET, none, none, none, some ⟨true, some 0⟩, none⟩), true⟩ ∧
    mapHas (ApiInstance.request (noInterceptors Nat) "" "s" []
        (ApiInstance.setCache (initState Nat 100)
          (ApiInstance.buildcacheKey "s"
            ⟨"/u", some .GET, none, none, none, some ⟨true, some 0⟩, none⟩)
          42 0 (some 0))
        ⟨"/u", some .GET, none, none, none, some ⟨true, some 0⟩, none⟩ 5
        (fun _ _ => Except.error (FetchErr.network "x"))).state.cache
      (ApiInstance.buildcacheKey "s"
        ⟨"/u", some .GET, none, none, none, some ⟨true, some 0⟩, none⟩) = true := by
  refine ⟨⟨rfl, by decide⟩, by decide, by decide, by decide, by decide⟩

/-! ### C8: interceptors -/

theorem requestTry_keyUsed (ints : IApiInterceptor α) (baseURL source : String)
    (defaultHeaders : List (String × String)) (st : ApiState α)
    (config finalConfig : TApiConfig) (now : Nat)
    (net : String → Nat → Except FetchErr (Resp α))
    (hI : ApiInstance.handleInterceptors ints config = .ok finalConfig) :
    (ApiInstance.requestTry ints baseURL source defaultHeaders st config now
      net).keyUsed = some (ApiInstance.buildcacheKey source finalConfig) := by
  cases hguard : ApiInstance.cacheGuard finalConfig with
  | false =>
    rw [requestTry_eq_noguard ints baseURL source defaultHeaders st config
      finalConfig now net hI hguard, requestNet_keyUsed]
  | true =>
    cases hq : mapGet st.cache (ApiInstance.buildcacheKey source finalConfig) with
    | none =>
      rw [requestTry_eq_miss ints baseURL source defaultHeaders st config
        finalConfig now net hI hguard hq, requestNet_keyUsed]
    | some entry =>
      cases hexp : ApiInstance.expired entry now with
      | false =>
        rw [requestTry_eq_hit_fresh ints baseURL source defaultHeaders st config
          finalConfig now net entry hI hguard hq hexp]
      | true =>
        rw [requestTry_eq_hit_stale ints baseURL source defaultHeaders st config
          finalConfig now net entry hI hguard hq hexp, requestNet_keyUsed]

theorem requestTry_fetchedURL_spec (ints : IApiInterceptor α)
    (baseURL source : String) (defaultHeaders : List (String × String))
    (st : ApiState α) (config finalConfig : TApiConfig) (now : Nat)
    (net : String → Nat → Except FetchErr (Resp α))
    (hI : ApiInstance.handleInterceptors ints config = .ok finalConfig) :
    (∀ u, (ApiInstance.requestTry ints baseURL source defaultHeaders st config
        now net).fetchedURL = some u →
      u = buildURL (baseURL ++ finalConfig.url) finalConfig.params) ∧
    (∀ ini, (ApiInstance.requestTry ints baseURL source defaultHeaders st config
        now net).fetchedInit = some ini →
      ini = ApiInstance.mkInit defaultHeaders finalConfig) := by
  cases hguard : ApiInstance.cacheGuard finalConfig with
  | false =>
    rw [requestTry_eq_noguard ints baseURL source defaultHeaders st config
      finalConfig now net hI hguard]
    constructor
    · intro u hu
      rw [requestNet_fetchedURL] at hu
      injection hu with h
      exact h.symm
    · intro ini hini
      rw [requestNet_fetchedInit] at hini
      injection hini with h
      exact h.symm
  | true =>
    cases hq : mapGet st.cache (ApiInstance.buildcacheKey source finalConfig) with
    | none =>
      rw [requestTry_eq_miss ints baseURL source defaultHeaders st config
        finalConfig now net hI hguard hq]
      constructor
      · intro u hu
        rw [requestNet_fetchedURL] at hu
        injection hu with h
        exact h.symm
      · intro ini hini
        rw [requestNet_fetchedInit] at hini
        injection hini with h
        exact h.symm
    | some entry =>
      cases hexp : ApiInstance.expired entry now with
      | false =>
        rw [requestTry_eq_hit_fresh ints baseURL source defaultHeaders st config
          finalConfig now net entry hI hguard hq hexp]
        constructor
        · intro u hu
          cases hu
        · intro ini hini
          cases hini
      | true =>
        rw [requestTry_eq_hit_stale ints baseURL source defaultHeaders st config
          finalConfig now net entry hI hguard hq hexp]
        constructor
        · intro u hu
          rw [requestNet_fetchedURL] at hu
          injection hu with h
          exact h.symm
        · intro ini hini
          rw [requestNet_fetchedInit] at hini
          injection hini with h
          exact h.symm

/-- C8: for every request through `ApiInstance.request`: the config a
registered request interceptor returns — not the original — determines
the cache key, the fetched URL and the fetch `RequestInit`; a registered
response interceptor receives the raw fetched `Response`, and the status
check and body parsing run on what it returns (its rejection becomes the
request's error); and every error of the try-block lifecycle is passed
to the error interceptor when one is registered, while without one the
error is rethrown to the caller unchanged.  (Note: with an error
interceptor the request settles with whatever that interceptor returns.) -/
theorem request_interceptors_spec (α : Type) (ints : IApiInterceptor α)
    (baseURL source : String) (defaultHeaders : List (String × String))
    (st : ApiState α) (config : TApiConfig) (now : Nat)
    (net : String → Nat → Except FetchErr (Resp α)) :
    (∀ f finalConfig, ints.request = some f → f config = .ok finalConfig →
      (ApiInstance.requestTry ints baseURL source defaultHeaders st config now
        net).keyUsed = some (ApiInstance.buildcacheKey source finalConfig) ∧
      (∀ u, (ApiInstance.requestTry ints baseURL source defaultHeaders st config
          now net).fetchedURL = some u →
        u = buildURL (baseURL ++ finalConfig.url) finalConfig.params) ∧
      (∀ ini, (ApiInstance.requestTry ints baseURL source defaultHeaders st
          config now net).fetchedInit = some ini →
        ini = ApiInstance.mkInit defaultHeaders finalConfig)) ∧
    (∀ (st' : ApiState α) (finalConfig : TApiConfig) (key : String) g raw,
      ints.response = some g →
      (ApiInstance.fetchWithRetry
        (net (buildURL (baseURL ++ finalConfig.url) finalConfig.params))
        (finalConfig.retry.getD 0)).result = .ok raw →
      (∀ e, g raw = .error e →
        (ApiInstance.requestNet ints baseURL defaultHeaders st' finalConfig key
          now net).result = .error e) ∧
      (∀ fresp, g raw = .ok fresp →
        (fresp.ok = false →
          (ApiInstance.requestNet ints baseURL defaultHeaders st' finalConfig key
            now net).result = .error (.http fresp.status)) ∧
        (fresp.ok = true →
          (ApiInstance.requestNet ints baseURL defaultHeaders st' finalConfig key
            now net).result = .ok ⟨fresp.data, some key, false⟩))) ∧
    (∀ e, (ApiInstance.requestTry ints baseURL source defaultHeaders st config
        now net).result = .error e →
      (∀ h, ints.error = some h →
        (ApiInstance.request ints baseURL source defaultHeaders st config now
          net).result = h e) ∧
      (ints.error = none →
        (ApiInstance.request ints baseURL source defaultHeaders st config now
          net).result = .error e)) ∧
    (∀ f e, ints.request = some f → f config = .error e →
      (ApiInstance.requestTry ints baseURL source defaultHeaders st config now
        net).result = .error e) := by
  refine ⟨?_, ?_, ?_, ?_⟩
  · intro f finalConfig hf hok
    have hI : ApiInstance.handleInterceptors ints config = .ok finalConfig := by
      unfold ApiInstance.handleInterceptors
      rw [hf]
      exact hok
    exact ⟨requestTry_keyUsed ints baseURL source defaultHeaders st config
        finalConfig now net hI,
      (requestTry_fetchedURL_spec ints baseURL source defaultHeaders st config
        finalConfig now net hI).1,
      (requestTry_fetchedURL_spec ints baseURL source defaultHeaders st config
        finalConfig now net hI).2⟩
  · intro st' finalConfig key g raw hg hrun
    have hhr : ApiInstance.handleResponse ints raw = g raw := by
      unfold ApiInstance.handleResponse
      rw [hg]
    constructor
    · intro e hge
      exact ((requestNet_eq_respInt ints baseURL defaultHeaders st' finalConfig
        key now net raw hrun).1 e (hhr.trans hge)).1
    · intro fresp hgo
      have h2 := (requestNet_eq_respInt ints baseURL defaultHeaders st'
        finalConfig key now net raw hrun).2 fresp (hhr.trans hgo)
      exact ⟨fun hnok => (h2.1 hnok).1, fun hok => (h2.2 hok).1⟩
  · intro e herr
    have heq := request_eq_of_try_err ints baseURL source defaultHeaders st
      config now net e herr
    constructor
    · intro h hh
      rw [heq]
      show ApiInstance.handleError ints e = h e
      unfold ApiInstance.handleError
      rw [hh]
    · intro hnone
      rw [heq]
      show ApiInstance.handleError ints e = .error e
      unfold ApiInstance.handleError
      rw [hnone]
  · intro f e hf hferr
    have hI : ApiInstance.handleInterceptors ints config = .error e := by
      unfold ApiInstance.handleInterceptors
      rw [hf]
      exact hferr
    rw [requestTry_eq_intErr ints baseURL source defaultHeaders st config now
      net e hI]

/-- C8 (witness): with a request interceptor rewriting the url to
`/u2`, the cache key used is the one of the rewritten config; and with
an error interceptor that rethrows, a network failure surfaces as that
interceptor's result. -/
theorem request_interceptors_spec_witness :
    ((⟨some fun _ => Except.ok ⟨"/u2", some .POST, none, none, none, none, none⟩,
        none, some fun e => Except.error e⟩ : IApiInterceptor Nat).request =
      some (fun _ =>
        Except.ok ⟨"/u2", some .POST, none, none, none, none, none⟩) ∧
     (fun _ : TApiConfig =>
        Except.ok (⟨"/u2", some .POST, none, none, none, none, none⟩ :
          TApiConfig) (ε := FetchErr))
       ⟨"/u", some .POST, none, none, none, none, none⟩ =
      .ok ⟨"/u2", some .POST, none, none, none, none, none⟩ ∧
     (ApiInstance.requestTry
        (⟨some fun _ =>
            Except.ok ⟨"/u2", some .POST, none, none, none, none, none⟩,
          none, some fun e => Except.error e⟩ : IApiInterceptor Nat)
        "" "s" [] (initState Nat 100)
        ⟨"/u", some .POST, none, none, none, none, none⟩ 5
        (fun _ _ => Except.error (FetchErr.network "x"))).result =
      .error (.network "x") ∧
     (⟨some fun _ => Except.ok ⟨"/u2", some .POST, none, none, none, none, none⟩,
        none, some fun e => Except.error e⟩ : IApiInterceptor Nat).error =
      some (fun e => Except.error e)) ∧
    ((ApiInstance.requestTry
        (⟨some fun _ =>
            Except.ok ⟨"/u2", some .POST, none, none, none, none, none⟩,
          none, some fun e => Except.error e⟩ : IApiInterceptor Nat)
        "" "s" [] (initState Nat 100)
        ⟨"/u", some .POST, none, none, none, none, none⟩ 5
        (fun _ _ => Except.error (FetchErr.network "x"))).keyUsed =
      some (ApiInstance.buildcacheKey "s"
        ⟨"/u2", some .POST, none, none, none, none, none⟩) ∧
     (ApiInstance.request
        (⟨some fun _ =>
            Except.ok ⟨"/u2", some .POST, none, none, none, none, none⟩,
          none, some fun e => Except.error e⟩ : IApiInterceptor Nat)
        "" "s" [] (initState Nat 100)
        ⟨"/u", some .POST, none, none, none, none, none⟩ 5
        (fun _ _ => Except.error (FetchErr.network "x"))).result =
      (fun e => Except.error e) (FetchErr.network "x")) := by
  have hspec := request_interceptors_spec Nat
    (⟨some fun _ => Except.ok ⟨"/u2", some .POST, none, none, none, none, none⟩,
      none, some fun e => Except.error e⟩ : IApiInterceptor Nat)
    "" "s" [] (initState Nat 100)
    ⟨"/u", some .POST, none, none, none, none, none⟩ 5
    (fun _ _ => Except.error (FetchErr.network "x"))
  have hkey := (hspec.1 (fun _ =>
      Except.ok ⟨"/u2", some .POST, none, none, none, none, none⟩)
    ⟨"/u2", some .POST, none, none, none, none, none⟩ rfl rfl).1
  have herr := (hspec.2.2.1 (.network "x") (by decide)).1
    (fun e => Except.error e) rfl
  exact ⟨⟨rfl, rfl, by decide, rfl⟩, hkey, herr⟩
